import Mathlib

/-!
Verification development for the Lua++ bytecode pipeline (compiler + VM + GC).

The definitions below are a shallow embedding of the C sources under src/:
vm.c (dispatch loops, calls, upvalues), compiler.c (emission, constant
folding, loops, scope analysis), the lexer (lexer.c), object.c and memory.c
(GC).  IEEE-754 doubles are modelled as rationals; machine byte streams as
lists of naturals.  Strings are interned in the C runtime, so string values
are modelled by their character content (pointer identity coincides with
content equality for interned strings); all other heap objects are modelled
by numeric identities into an explicit heap.

Files table.c, value.c and chunk.c/chunk.h of the repository are not under
src/ (only their headers/callers are); the handful of primitives they
provide (hash-table get/set, value equality, chunk append) are modelled from
the spec, each marked as such in its doc comment.
-/

set_option maxHeartbeats 1000000

namespace Luapp

/-- Heap object identity (a C object pointer). -/
abbrev ObjId := Nat

/-- Runtime value (value.h).  Numbers (C doubles) are modelled as rationals;
strings by content (interning makes content equality coincide with pointer
equality); every other object by its heap identity. -/
inductive Value where
  | nil
  | bool (b : Bool)
  | num (n : ℚ)
  | str (s : List Char)
  | obj (o : ObjId)
deriving DecidableEq, Repr

/-- Modelled from the spec: value.c is not under src/.  Equality is
structural on nil/booleans/numbers, identity on objects, and content on
strings (which is identity for interned strings). -/
def valuesEqual (a b : Value) : Bool := a == b

/-- Bytecode operation set (chunk.h is not under src/; the opcode list is
fixed by the spec, the numeric encoding is an implementation choice). -/
inductive Op where
  | opCONSTANT | opNIL | opTRUE | opFALSE | opPOP | opPOPN
  | opGET_LOCAL | opSET_LOCAL
  | opGET_GLOBAL | opDEFINE_GLOBAL | opSET_GLOBAL
  | opGET_UPVALUE | opSET_UPVALUE | opCLOSE_UPVALUE
  | opGET_PROPERTY | opSET_PROPERTY | opGET_SUPER
  | opEQUAL | opGREATER | opLESS
  | opADD | opSUBTRACT | opMULTIPLY | opDIVIDE | opMODULO
  | opNOT | opNEGATE | opCONCAT | opLENGTH
  | opJUMP | opJUMP_IF_FALSE | opLOOP
  | opCALL | opINVOKE | opSUPER_INVOKE | opCLOSURE | opRETURN
  | opCLASS | opINHERIT | opMETHOD | opNEW
  | opTABLE | opTABLE_GET | opTABLE_SET | opTABLE_ADD | opTABLE_SET_FIELD
  | opTRAIT | opIMPLEMENT
deriving DecidableEq, Repr

/-- Modelled from the spec: numeric encoding of the opcode enum
(implementation choice; chunk.h is not under src/). -/
def Op.toByte : Op → Nat
  | .opCONSTANT => 0 | .opNIL => 1 | .opTRUE => 2 | .opFALSE => 3
  | .opPOP => 4 | .opPOPN => 5
  | .opGET_LOCAL => 6 | .opSET_LOCAL => 7
  | .opGET_GLOBAL => 8 | .opDEFINE_GLOBAL => 9 | .opSET_GLOBAL => 10
  | .opGET_UPVALUE => 11 | .opSET_UPVALUE => 12 | .opCLOSE_UPVALUE => 13
  | .opGET_PROPERTY => 14 | .opSET_PROPERTY => 15 | .opGET_SUPER => 16
  | .opEQUAL => 17 | .opGREATER => 18 | .opLESS => 19
  | .opADD => 20 | .opSUBTRACT => 21 | .opMULTIPLY => 22 | .opDIVIDE => 23
  | .opMODULO => 24
  | .opNOT => 25 | .opNEGATE => 26 | .opCONCAT => 27 | .opLENGTH => 28
  | .opJUMP => 29 | .opJUMP_IF_FALSE => 30 | .opLOOP => 31
  | .opCALL => 32 | .opINVOKE => 33 | .opSUPER_INVOKE => 34
  | .opCLOSURE => 35 | .opRETURN => 36
  | .opCLASS => 37 | .opINHERIT => 38 | .opMETHOD => 39 | .opNEW => 40
  | .opTABLE => 41 | .opTABLE_GET => 42 | .opTABLE_SET => 43
  | .opTABLE_ADD => 44 | .opTABLE_SET_FIELD => 45
  | .opTRAIT => 46 | .opIMPLEMENT => 47

/-- Decoding of an instruction byte (the VM switch dispatches on this). -/
def decodeOp (b : Nat) : Option Op :=
  match b with
  | 0 => some .opCONSTANT | 1 => some .opNIL | 2 => some .opTRUE
  | 3 => some .opFALSE | 4 => some .opPOP | 5 => some .opPOPN
  | 6 => some .opGET_LOCAL | 7 => some .opSET_LOCAL
  | 8 => some .opGET_GLOBAL | 9 => some .opDEFINE_GLOBAL
  | 10 => some .opSET_GLOBAL
  | 11 => some .opGET_UPVALUE | 12 => some .opSET_UPVALUE
  | 13 => some .opCLOSE_UPVALUE
  | 14 => some .opGET_PROPERTY | 15 => some .opSET_PROPERTY
  | 16 => some .opGET_SUPER
  | 17 => some .opEQUAL | 18 => some .opGREATER | 19 => some .opLESS
  | 20 => some .opADD | 21 => some .opSUBTRACT | 22 => some .opMULTIPLY
  | 23 => some .opDIVIDE | 24 => some .opMODULO
  | 25 => some .opNOT | 26 => some .opNEGATE | 27 => some .opCONCAT
  | 28 => some .opLENGTH
  | 29 => some .opJUMP | 30 => some .opJUMP_IF_FALSE | 31 => some .opLOOP
  | 32 => some .opCALL | 33 => some .opINVOKE | 34 => some .opSUPER_INVOKE
  | 35 => some .opCLOSURE | 36 => some .opRETURN
  | 37 => some .opCLASS | 38 => some .opINHERIT | 39 => some .opMETHOD
  | 40 => some .opNEW
  | 41 => some .opTABLE | 42 => some .opTABLE_GET | 43 => some .opTABLE_SET
  | 44 => some .opTABLE_ADD | 45 => some .opTABLE_SET_FIELD
  | 46 => some .opTRAIT | 47 => some .opIMPLEMENT
  | _ => none

theorem decodeOp_toByte (o : Op) : decodeOp o.toByte = some o := by
  cases o <;> rfl

/-- Chunk: bytecode plus constant pool (chunk.h; the parallel line array is
irrelevant to the verified claims and omitted). -/
structure Chunk where
  code : List Nat
  constants : List Value
deriving DecidableEq, Repr

/-- Truncation of a C double to int, as performed by a C cast: rounding
toward zero (T-division of the numerator by the denominator). -/
def cint (q : ℚ) : Int := q.num.tdiv q.den

/-- C truncated modulo on machine ints, as computed by the C percent
operator (sign follows the dividend). -/
def cmod (a b : Int) : Int := Int.tmod a b

/-- String-keyed hash table, modelled from the spec as an association list
(table.c is not under src/; keys are interned strings, here their content). -/
abbrev STable := List (List Char × Value)

/-- Modelled from the spec: tableGet looks a key up, reporting presence. -/
def tableGet (t : STable) (k : List Char) : Option Value :=
  t.lookup k

/-- Modelled from the spec: tableSet inserts or updates, returning true
exactly when the key was new. -/
def tableSet (t : STable) (k : List Char) (v : Value) : Bool × STable :=
  match tableGet t k with
  | some _ => (false, t.map (fun p => if p.1 = k then (k, v) else p))
  | none => (true, t ++ [(k, v)])

/-- Modelled from the spec: tableDelete removes a key. -/
def tableDelete (t : STable) (k : List Char) : STable :=
  t.filter (fun p => p.1 ≠ k)

/-- Modelled from the spec: tableAddAll copies every entry of the first
table into the second (used by OP_INHERIT and OP_IMPLEMENT). -/
def tableAddAll (src dst : STable) : STable :=
  src.foldl (fun acc p => (tableSet acc p.1 p.2).2) dst

/-- Location state of an upvalue: open (pointing at a stack slot) or closed
(holding the value in the object). -/
inductive UpLoc where
  | openAt (slot : Nat)
  | closed (v : Value)
deriving DecidableEq, Repr

/-- Heap object payloads (object.h), strings excepted (strings are modelled
by content inside Value). -/
inductive HObj where
  | function (arity : Nat) (upvalueCount : Nat) (chunk : Chunk)
      (name : Option (List Char))
  | native (fnId : Nat) (name : List Char)
  | closure (fn : ObjId) (upvalues : List (Option ObjId))
  | upvalue (loc : UpLoc)
  | cls (name : List Char) (superclass : Option ObjId)
      (methods : STable) (privates : STable)
  | inst (klass : ObjId) (fields : STable)
  | bound (receiver : Value) (method : ObjId)
  | table (entries : STable) (array : List Value)
  | trait (name : List Char) (methodTbl : STable)
deriving DecidableEq, Repr

/-- One call frame: active closure, instruction cursor, stack base. -/
structure Frame where
  closure : ObjId
  ip : Nat
  slots : Nat
deriving DecidableEq, Repr

/-- FRAMES_MAX from vm.h. -/
def FRAMES_MAX : Nat := 64

/-- VM state (the VM struct of vm.h).  The frame list keeps the most recent
frame at the head; stack index 0 is the bottom of the value stack. -/
structure VMState where
  heap : List (ObjId × HObj)
  nextId : ObjId
  stack : List Value
  frames : List Frame
  globals : STable
  openUpvalues : List ObjId
deriving DecidableEq, Repr

/-- Heap lookup by object identity. -/
def heapGet (s : VMState) (id : ObjId) : Option HObj :=
  s.heap.lookup id

/-- Heap update at an existing identity. -/
def heapSet (s : VMState) (id : ObjId) (o : HObj) : VMState :=
  { s with heap := s.heap.map (fun p => if p.1 = id then (id, o) else p) }

/-- Object allocation: fresh id, prepended to the heap list (the C
allocator links new objects at the head of the all-objects list). -/
def allocObj (s : VMState) (o : HObj) : ObjId × VMState :=
  (s.nextId,
   { s with heap := (s.nextId, o) :: s.heap, nextId := s.nextId + 1 })

/-- push from vm.c. -/
def pushV (s : VMState) (v : Value) : VMState :=
  { s with stack := s.stack ++ [v] }

/-- pop from vm.c (popping an empty stack is C undefined behavior, hence
Option). -/
def popV (s : VMState) : Option (Value × VMState) :=
  match s.stack.getLast? with
  | some v => some (v, { s with stack := s.stack.dropLast })
  | none => none

/-- peek from vm.c. -/
def peekV (s : VMState) (distance : Nat) : Option Value :=
  s.stack.get? (s.stack.length - 1 - distance)

/-- Write the stack cell at offset distance+1 below the top
(the C idiom vm.stackTop[-distance-1] = v). -/
def setFromTop (s : VMState) (distance : Nat) (v : Value) : VMState :=
  { s with stack := s.stack.set (s.stack.length - 1 - distance) v }

/-- isFalsey from vm.c: nil and false are falsey. -/
def isFalsey (v : Value) : Bool :=
  match v with
  | .nil => true
  | .bool b => !b
  | _ => false

/-- resetStack from vm.c, as performed by runtimeError: clear the value
stack, the frames and the open-upvalue list. -/
def runtimeError (s : VMState) : VMState :=
  { s with stack := [], frames := [], openUpvalues := [] }

/-- Read the current (topmost) frame. -/
def topFrame (s : VMState) : Option Frame :=
  s.frames.head?

/-- Replace the topmost frame. -/
def setTopFrame (s : VMState) (f : Frame) : VMState :=
  { s with frames := f :: s.frames.tail }

/-- Chunk of the function of the given closure id. -/
def closureChunk (s : VMState) (cid : ObjId) : Option Chunk := do
  match heapGet s cid with
  | some (.closure fn _) =>
    match heapGet s fn with
    | some (.function _ _ ch _) => some ch
    | _ => none
  | _ => none

end Luapp

namespace Luapp

/-- READ_BYTE: fetch the byte at the current frame's instruction cursor and
advance the cursor. -/
def readByte (s : VMState) : Option (Nat × VMState) := do
  let f ← topFrame s
  let ch ← closureChunk s f.closure
  let b ← ch.code.get? f.ip
  some (b, setTopFrame s { f with ip := f.ip + 1 })

/-- READ_SHORT: fetch a big-endian 16-bit operand. -/
def readShort (s : VMState) : Option (Nat × VMState) := do
  let f ← topFrame s
  let ch ← closureChunk s f.closure
  let hi ← ch.code.get? f.ip
  let lo ← ch.code.get? (f.ip + 1)
  some (hi * 256 + lo, setTopFrame s { f with ip := f.ip + 2 })

/-- READ_CONSTANT: fetch a byte and index the constant pool with it. -/
def readConstant (s : VMState) : Option (Value × VMState) := do
  let (b, s1) ← readByte s
  let f ← topFrame s1
  let ch ← closureChunk s1 f.closure
  let v ← ch.constants.get? b
  some (v, s1)

/-- READ_STRING: READ_CONSTANT followed by the AS_STRING cast (undefined
behavior when the constant is not a string, hence Option). -/
def readString (s : VMState) : Option (List Char × VMState) := do
  let (v, s1) ← readConstant s
  match v with
  | .str cs => some (cs, s1)
  | _ => none

/-- call from vm.c: arity check, frame-overflow check, then push a frame
whose slot base sits under the callee and its arguments.  The Bool is the
C return value; a false return comes with the runtimeError-reset state. -/
def call (s : VMState) (cid : ObjId) (argCount : Nat) :
    Option (Bool × VMState) :=
  match heapGet s cid with
  | some (.closure fn _) =>
    match heapGet s fn with
    | some (.function arity _ _ _) =>
      if argCount ≠ arity then some (false, runtimeError s)
      else if s.frames.length = FRAMES_MAX then some (false, runtimeError s)
      else some (true,
        { s with frames :=
            ⟨cid, 0, s.stack.length - argCount - 1⟩ :: s.frames })
    | _ => none
  | _ => none

/-- callValue from vm.c.  The native-function semantics is a parameter
ns (the C function pointer table); native calls replace callee and
arguments by the single result. -/
def callValue (ns : Nat → List Value → Value) (s : VMState) (callee : Value)
    (argCount : Nat) : Option (Bool × VMState) :=
  match callee with
  | .obj id =>
    match heapGet s id with
    | some (.closure _ _) => call s id argCount
    | some (.native nid _) =>
      let args := s.stack.drop (s.stack.length - argCount)
      let result := ns nid args
      let s1 := { s with stack := s.stack.take (s.stack.length - (argCount + 1)) }
      some (true, pushV s1 result)
    | some (.bound recv m) =>
      call (setFromTop s argCount recv) m argCount
    | some _ => some (false, runtimeError s)
    | none => none
  | _ => some (false, runtimeError s)

/-- invokeFromClass from vm.c: look the method up on the class and call it
(the AS_CLOSURE cast on a non-object method value is undefined behavior). -/
def invokeFromClass (s : VMState) (classId : ObjId) (name : List Char)
    (argCount : Nat) : Option (Bool × VMState) :=
  match heapGet s classId with
  | some (.cls _ _ methods _) =>
    match tableGet methods name with
    | none => some (false, runtimeError s)
    | some m =>
      match m with
      | .obj mid => call s mid argCount
      | _ => none
  | _ => none

/-- invoke from vm.c: fields shadow methods; a field hit replaces the
receiver slot and is called as a value. -/
def invoke (ns : Nat → List Value → Value) (s : VMState) (name : List Char)
    (argCount : Nat) : Option (Bool × VMState) := do
  let receiver ← peekV s argCount
  match receiver with
  | .obj rid =>
    match heapGet s rid with
    | some (.inst klass fields) =>
      match tableGet fields name with
      | some v => callValue ns (setFromTop s argCount v) v argCount
      | none => invokeFromClass s klass name argCount
    | some _ => some (false, runtimeError s)
    | none => none
  | _ => some (false, runtimeError s)

/-- bindMethod from vm.c: wrap the class method and the receiver on top of
the stack into a bound method, replacing the receiver. -/
def bindMethod (s : VMState) (classId : ObjId) (name : List Char) :
    Option (Bool × VMState) :=
  match heapGet s classId with
  | some (.cls _ _ methods _) =>
    match tableGet methods name with
    | none => some (false, runtimeError s)
    | some m =>
      match m with
      | .obj mid => do
        let recv ← peekV s 0
        let (bid, s1) := allocObj s (.bound recv mid)
        let (_, s2) ← popV s1
        some (true, pushV s2 (.obj bid))
      | _ => none
  | _ => none

/-- Walk of captureUpvalue over the open-upvalue list: skip nodes whose
stack slot lies above the captured slot, reuse an exact match, otherwise
splice a fresh node in at the sorted position.  Returns (found, id, list). -/
def captureGo (s : VMState) (localSlot : Nat) (fresh : ObjId) :
    List ObjId → Option (Bool × ObjId × List ObjId)
  | [] => some (false, fresh, [fresh])
  | u :: rest =>
    match heapGet s u with
    | some (.upvalue (.openAt slot)) =>
      if localSlot < slot then do
        let (found, i, l) ← captureGo s localSlot fresh rest
        some (found, i, u :: l)
      else if slot = localSlot then some (true, u, u :: rest)
      else some (false, fresh, fresh :: u :: rest)
    | _ => none

/-- captureUpvalue from vm.c: return the open upvalue for the slot if one
exists, else allocate one and insert it keeping descending slot order. -/
def captureUpvalue (s : VMState) (localSlot : Nat) :
    Option (ObjId × VMState) := do
  let (found, i, l) ← captureGo s localSlot s.nextId s.openUpvalues
  if found then
    some (i, { s with openUpvalues := l })
  else
    let (_, s1) := allocObj s (.upvalue (.openAt localSlot))
    some (i, { s1 with openUpvalues := l })

/-- Loop of closeUpvalues: while the head node's slot is at or above the
limit, copy the stack value into the node, retarget it at itself (closed)
and unlink it.  The list argument tracks vm.openUpvalues. -/
def closeGo (last : Nat) : List ObjId → VMState → VMState
  | [], s => s
  | u :: rest, s =>
    match heapGet s u with
    | some (.upvalue (.openAt slot)) =>
      if last ≤ slot then
        closeGo last rest
          { heapSet s u (.upvalue (.closed (s.stack.getD slot .nil)))
              with openUpvalues := rest }
      else s
    | _ => s

/-- closeUpvalues from vm.c. -/
def closeUpvalues (s : VMState) (last : Nat) : VMState :=
  closeGo last s.openUpvalues s

/-- defineMethod from vm.c: store the closure on top of the stack into the
class or trait below it; private methods are additionally recorded in the
class's privates table; the method is popped in every case. -/
def defineMethod (s : VMState) (name : List Char) (isPrivate : Bool) :
    Option VMState := do
  let method ← peekV s 0
  let target ← peekV s 1
  let s1 :=
    match target with
    | .obj tid =>
      match heapGet s tid with
      | some (.cls n sup methods privs) =>
        heapSet s tid (.cls n sup (tableSet methods name method).2
          (if isPrivate then (tableSet privs name (.bool true)).2 else privs))
      | some (.trait n ms) =>
        heapSet s tid (.trait n (tableSet ms name method).2)
      | _ => s
    | _ => s
  let (_, s2) ← popV s1
  some s2

/-- concatenate from vm.c: pop two strings, push their concatenation
(interning makes the result's identity its content). -/
def concatenate (s : VMState) : Option VMState := do
  let b ← peekV s 0
  let a ← peekV s 1
  match a, b with
  | .str sa, .str sb => do
    let (_, s1) ← popV s
    let (_, s2) ← popV s1
    some (pushV s2 (.str (sa ++ sb)))
  | _, _ => none

/-- Cached "init" string from the VM state (vm.initString). -/
def initName : List Char := [Char.ofNat 105, Char.ofNat 110, Char.ofNat 105, Char.ofNat 116]

end Luapp

namespace Luapp

/-- Outcome of one iteration of the primary dispatch loop run: continue,
return INTERPRET_OK, return INTERPRET_RUNTIME_ERROR (with the stack already
reset by runtimeError), or C undefined behavior. -/
inductive StepOut where
  | ok (s : VMState)
  | interpOk (s : VMState)
  | interpErr (s : VMState)
  | stuck
deriving DecidableEq, Repr

/-- The BINARY_OP macro of run: check both operands are numbers (else report
a runtime error), pop them and push the combined value. -/
def binaryNumOp (s : VMState) (mk : ℚ → ℚ → Value) : StepOut :=
  match peekV s 0, peekV s 1 with
  | some (.num b), some (.num a) =>
    match popV s with
    | some (_, s1) =>
      match popV s1 with
      | some (_, s2) => .ok (pushV s2 (mk a b))
      | none => .stuck
    | none => .stuck
  | some _, some _ => .interpErr (runtimeError s)
  | _, _ => .stuck

/-- Reads of an upvalue cell through its location pointer. -/
def readUpvalue (s : VMState) (uid : ObjId) : Option Value :=
  match heapGet s uid with
  | some (.upvalue (.openAt slot)) => s.stack.get? slot
  | some (.upvalue (.closed v)) => some v
  | _ => none

/-- Writes of an upvalue cell through its location pointer. -/
def writeUpvalue (s : VMState) (uid : ObjId) (v : Value) : Option VMState :=
  match heapGet s uid with
  | some (.upvalue (.openAt slot)) =>
    if slot < s.stack.length then
      some { s with stack := s.stack.set slot v }
    else none
  | some (.upvalue (.closed _)) => some (heapSet s uid (.upvalue (.closed v)))
  | _ => none

/-- Stores a (possibly null) upvalue pointer into slot i of a closure's
upvalue array. -/
def setClosureUpvalue (s : VMState) (cid : ObjId) (i : Nat)
    (u : Option ObjId) : Option VMState :=
  match heapGet s cid with
  | some (.closure fn ups) => some (heapSet s cid (.closure fn (ups.set i u)))
  | _ => none

/-- OP_CLOSURE upvalue-capture loop of run: for each of the remaining
upvalues read the (isLocal, index) byte pair; a local capture goes through
captureUpvalue on the current frame's slot, otherwise the current closure's
upvalue pointer is copied verbatim. -/
def runCaptureLoop (cid : ObjId) : Nat → Nat → VMState → Option VMState
  | _, 0, s => some s
  | i, n + 1, s => do
    let (isLocal, s1) ← readByte s
    let (index, s2) ← readByte s1
    let f ← topFrame s2
    if isLocal ≠ 0 then do
      let (uid, s3) ← captureUpvalue s2 (f.slots + index)
      let s4 ← setClosureUpvalue s3 cid i (some uid)
      runCaptureLoop cid (i + 1) n s4
    else
      match heapGet s2 f.closure with
      | some (.closure _ ups) => do
        let u ← ups.get? index
        let s4 ← setClosureUpvalue s2 cid i u
        runCaptureLoop cid (i + 1) n s4
      | _ => none

/-- One iteration of the primary dispatch loop run from vm.c: fetch an
opcode byte and execute it.  A byte outside the opcode set falls out of the
C switch (which has no default case) and the loop continues. -/
def runStep (ns : Nat → List Value → Value) (s : VMState) : StepOut :=
  match readByte s with
  | none => .stuck
  | some (b, s) =>
    match decodeOp b with
    | none => .ok s
    | some op =>
      match op with
      | .opCONSTANT =>
        match readConstant s with
        | some (v, s1) => .ok (pushV s1 v)
        | none => .stuck
      | .opNIL => .ok (pushV s .nil)
      | .opTRUE => .ok (pushV s (.bool true))
      | .opFALSE => .ok (pushV s (.bool false))
      | .opPOP =>
        match popV s with
        | some (_, s1) => .ok s1
        | none => .stuck
      | .opPOPN =>
        match readByte s with
        | some (n, s1) =>
          .ok { s1 with stack := s1.stack.take (s1.stack.length - n) }
        | none => .stuck
      | .opGET_LOCAL =>
        match readByte s with
        | some (slot, s1) =>
          match topFrame s1 with
          | some f =>
            match s1.stack.get? (f.slots + slot) with
            | some v => .ok (pushV s1 v)
            | none => .stuck
          | none => .stuck
        | none => .stuck
      | .opSET_LOCAL =>
        match readByte s with
        | some (slot, s1) =>
          match topFrame s1, peekV s1 0 with
          | some f, some v =>
            if f.slots + slot < s1.stack.length then
              .ok { s1 with stack := s1.stack.set (f.slots + slot) v }
            else .stuck
          | _, _ => .stuck
        | none => .stuck
      | .opGET_GLOBAL =>
        match readString s with
        | some (name, s1) =>
          match tableGet s1.globals name with
          | some v => .ok (pushV s1 v)
          | none => .interpErr (runtimeError s1)
        | none => .stuck
      | .opDEFINE_GLOBAL =>
        match readString s with
        | some (name, s1) =>
          match peekV s1 0 with
          | some v =>
            let s2 := { s1 with globals := (tableSet s1.globals name v).2 }
            match popV s2 with
            | some (_, s3) => .ok s3
            | none => .stuck
          | none => .stuck
        | none => .stuck
      | .opSET_GLOBAL =>
        match readString s with
        | some (name, s1) =>
          match peekV s1 0 with
          | some v =>
            let (isNew, g) := tableSet s1.globals name v
            if isNew then
              .interpErr (runtimeError { s1 with globals := tableDelete g name })
            else .ok { s1 with globals := g }
          | none => .stuck
        | none => .stuck
      | .opGET_UPVALUE =>
        match readByte s with
        | some (slot, s1) =>
          match topFrame s1 with
          | some f =>
            match heapGet s1 f.closure with
            | some (.closure _ ups) =>
              match ups.get? slot with
              | some (some uid) =>
                match readUpvalue s1 uid with
                | some v => .ok (pushV s1 v)
                | none => .stuck
              | _ => .stuck
            | _ => .stuck
          | none => .stuck
        | none => .stuck
      | .opSET_UPVALUE =>
        match readByte s with
        | some (slot, s1) =>
          match topFrame s1, peekV s1 0 with
          | some f, some v =>
            match heapGet s1 f.closure with
            | some (.closure _ ups) =>
              match ups.get? slot with
              | some (some uid) =>
                match writeUpvalue s1 uid v with
                | some s2 => .ok s2
                | none => .stuck
              | _ => .stuck
            | _ => .stuck
          | _, _ => .stuck
        | none => .stuck
      | .opCLOSE_UPVALUE =>
        let s1 := closeUpvalues s (s.stack.length - 1)
        match popV s1 with
        | some (_, s2) => .ok s2
        | none => .stuck
      | .opGET_PROPERTY =>
        match peekV s 0 with
        | some (.obj iid) =>
          match heapGet s iid with
          | some (.inst klass fields) =>
            match readString s with
            | some (name, s1) =>
              match tableGet fields name with
              | some value =>
                match popV s1 with
                | some (_, s2) => .ok (pushV s2 value)
                | none => .stuck
              | none =>
                match bindMethod s1 klass name with
                | some (true, s2) => .ok s2
                | some (false, s2) => .interpErr s2
                | none => .stuck
            | none => .stuck
          | some _ => .interpErr (runtimeError s)
          | none => .stuck
        | some _ => .interpErr (runtimeError s)
        | none => .stuck
      | .opSET_PROPERTY =>
        match peekV s 1 with
        | some (.obj iid) =>
          match heapGet s iid with
          | some (.inst klass fields) =>
            match readString s, peekV s 0 with
            | some (name, s1), some v =>
              let s2 := heapSet s1 iid (.inst klass (tableSet fields name v).2)
              match popV s2 with
              | some (value, s3) =>
                match popV s3 with
                | some (_, s4) => .ok (pushV s4 value)
                | none => .stuck
              | none => .stuck
            | _, _ => .stuck
          | some _ => .interpErr (runtimeError s)
          | none => .stuck
        | some _ => .interpErr (runtimeError s)
        | none => .stuck
      | .opGET_SUPER =>
        match readString s with
        | some (name, s1) =>
          match popV s1 with
          | some (.obj superId, s2) =>
            match bindMethod s2 superId name with
            | some (true, s3) => .ok s3
            | some (false, s3) => .interpErr s3
            | none => .stuck
          | some _ => .stuck
          | none => .stuck
        | none => .stuck
      | .opEQUAL =>
        match popV s with
        | some (b0, s1) =>
          match popV s1 with
          | some (a0, s2) => .ok (pushV s2 (.bool (valuesEqual a0 b0)))
          | none => .stuck
        | none => .stuck
      | .opGREATER => binaryNumOp s (fun a b => .bool (decide (a > b)))
      | .opLESS => binaryNumOp s (fun a b => .bool (decide (a < b)))
      | .opADD => binaryNumOp s (fun a b => .num (a + b))
      | .opSUBTRACT => binaryNumOp s (fun a b => .num (a - b))
      | .opMULTIPLY => binaryNumOp s (fun a b => .num (a * b))
      | .opDIVIDE => binaryNumOp s (fun a b => .num (a / b))
      | .opMODULO =>
        match peekV s 0, peekV s 1 with
        | some (.num b), some (.num a) =>
          if cint b = 0 then .stuck
          else
            match popV s with
            | some (_, s1) =>
              match popV s1 with
              | some (_, s2) =>
                .ok (pushV s2 (.num ((cmod (cint a) (cint b) : Int) : ℚ)))
              | none => .stuck
            | none => .stuck
        | some _, some _ => .interpErr (runtimeError s)
        | _, _ => .stuck
      | .opCONCAT =>
        match peekV s 0, peekV s 1 with
        | some (.str _), some (.str _) =>
          match concatenate s with
          | some s1 => .ok s1
          | none => .stuck
        | some _, some _ => .interpErr (runtimeError s)
        | _, _ => .stuck
      | .opNOT =>
        match popV s with
        | some (v, s1) => .ok (pushV s1 (.bool (isFalsey v)))
        | none => .stuck
      | .opNEGATE =>
        match peekV s 0 with
        | some (.num _) =>
          match popV s with
          | some (.num n, s1) => .ok (pushV s1 (.num (-n)))
          | _ => .stuck
        | some _ => .interpErr (runtimeError s)
        | none => .stuck
      | .opLENGTH =>
        match popV s with
        | some (.str cs, s1) => .ok (pushV s1 (.num cs.length))
        | some (.obj tid, s1) =>
          match heapGet s1 tid with
          | some (.table _ arr) => .ok (pushV s1 (.num arr.length))
          | some _ => .interpErr (runtimeError s1)
          | none => .stuck
        | some (_, s1) => .interpErr (runtimeError s1)
        | none => .stuck
      | .opJUMP =>
        match readShort s with
        | some (offset, s1) =>
          match topFrame s1 with
          | some f => .ok (setTopFrame s1 { f with ip := f.ip + offset })
          | none => .stuck
        | none => .stuck
      | .opJUMP_IF_FALSE =>
        match readShort s with
        | some (offset, s1) =>
          match topFrame s1, peekV s1 0 with
          | some f, some v =>
            if isFalsey v then .ok (setTopFrame s1 { f with ip := f.ip + offset })
            else .ok s1
          | _, _ => .stuck
        | none => .stuck
      | .opLOOP =>
        match readShort s with
        | some (offset, s1) =>
          match topFrame s1 with
          | some f => .ok (setTopFrame s1 { f with ip := f.ip - offset })
          | none => .stuck
        | none => .stuck
      | .opCALL =>
        match readByte s with
        | some (argCount, s1) =>
          match peekV s1 argCount with
          | some callee =>
            match callValue ns s1 callee argCount with
            | some (true, s2) => .ok s2
            | some (false, s2) => .interpErr s2
            | none => .stuck
          | none => .stuck
        | none => .stuck
      | .opINVOKE =>
        match readString s with
        | some (name, s1) =>
          match readByte s1 with
          | some (argCount, s2) =>
            match invoke ns s2 name argCount with
            | some (true, s3) => .ok s3
            | some (false, s3) => .interpErr s3
            | none => .stuck
          | none => .stuck
        | none => .stuck
      | .opSUPER_INVOKE =>
        match readString s with
        | some (name, s1) =>
          match readByte s1 with
          | some (argCount, s2) =>
            match popV s2 with
            | some (.obj superId, s3) =>
              match invokeFromClass s3 superId name argCount with
              | some (true, s4) => .ok s4
              | some (false, s4) => .interpErr s4
              | none => .stuck
            | some _ => .stuck
            | none => .stuck
          | none => .stuck
        | none => .stuck
      | .opCLOSURE =>
        match readConstant s with
        | some (.obj fnId, s1) =>
          match heapGet s1 fnId with
          | some (.function _ upc _ _) =>
            let (cid, s2) := allocObj s1 (.closure fnId (List.replicate upc none))
            match runCaptureLoop cid 0 upc (pushV s2 (.obj cid)) with
            | some s3 => .ok s3
            | none => .stuck
          | _ => .stuck
        | some _ => .stuck
        | none => .stuck
      | .opRETURN =>
        match popV s with
        | some (result, s1) =>
          match topFrame s1 with
          | some f =>
            let s2 := closeUpvalues s1 f.slots
            let s3 := { s2 with frames := s2.frames.tail }
            if s3.frames.isEmpty then
              match popV s3 with
              | some (_, s4) => .interpOk s4
              | none => .stuck
            else
              .ok (pushV { s3 with stack := s3.stack.take f.slots } result)
          | none => .stuck
        | none => .stuck
      | .opCLASS =>
        match readString s with
        | some (name, s1) =>
          let (kid, s2) := allocObj s1 (.cls name none [] [])
          .ok (pushV s2 (.obj kid))
        | none => .stuck
      | .opINHERIT =>
        match peekV s 1 with
        | some (.obj superId) =>
          match heapGet s superId with
          | some (.cls _ _ superMethods _) =>
            match peekV s 0 with
            | some (.obj subId) =>
              match heapGet s subId with
              | some (.cls n _ subMethods privs) =>
                let s1 := heapSet s subId
                  (.cls n (some superId) (tableAddAll superMethods subMethods) privs)
                match popV s1 with
                | some (_, s2) => .ok s2
                | none => .stuck
              | _ => .stuck
            | _ => .stuck
          | some _ => .interpErr (runtimeError s)
          | none => .stuck
        | some _ => .interpErr (runtimeError s)
        | none => .stuck
      | .opMETHOD =>
        match readString s with
        | some (name, s1) =>
          match readByte s1 with
          | some (isPrivate, s2) =>
            match defineMethod s2 name (isPrivate ≠ 0) with
            | some s3 => .ok s3
            | none => .stuck
          | none => .stuck
        | none => .stuck
      | .opNEW =>
        match readByte s with
        | some (argCount, s1) =>
          match peekV s1 argCount with
          | some (.obj kid) =>
            match heapGet s1 kid with
            | some (.cls _ _ methods _) =>
              let (iid, s2) := allocObj s1 (.inst kid [])
              let s3 := setFromTop s2 argCount (.obj iid)
              match tableGet methods initName with
              | some (.obj mid) =>
                match call s3 mid argCount with
                | some (true, s4) => .ok s4
                | some (false, s4) => .interpErr s4
                | none => .stuck
              | some _ => .stuck
              | none =>
                if argCount ≠ 0 then .interpErr (runtimeError s3)
                else .ok s3
            | some _ => .interpErr (runtimeError s1)
            | none => .stuck
          | some _ => .interpErr (runtimeError s1)
          | none => .stuck
        | none => .stuck
      | .opTABLE =>
        let (tid, s1) := allocObj s (.table [] [])
        .ok (pushV s1 (.obj tid))
      | .opTABLE_GET =>
        match popV s with
        | some (key, s1) =>
          match popV s1 with
          | some (.obj tid, s2) =>
            match heapGet s2 tid with
            | some (.table entries arr) =>
              match key with
              | .num n =>
                let index := cint n
                if 1 ≤ index ∧ index ≤ arr.length then
                  .ok (pushV s2 (arr.getD (index - 1).toNat .nil))
                else .ok (pushV s2 .nil)
              | .str k =>
                match tableGet entries k with
                | some v => .ok (pushV s2 v)
                | none => .ok (pushV s2 .nil)
              | _ => .ok (pushV s2 .nil)
            | some _ => .interpErr (runtimeError s2)
            | none => .stuck
          | some (_, s2) => .interpErr (runtimeError s2)
          | none => .stuck
        | none => .stuck
      | .opTABLE_SET =>
        match popV s with
        | some (value, s1) =>
          match popV s1 with
          | some (key, s2) =>
            match popV s2 with
            | some (.obj tid, s3) =>
              match heapGet s3 tid with
              | some (.table entries arr) =>
                match key with
                | .num n =>
                  let index := cint n
                  if 1 ≤ index then
                    let padded := arr ++ List.replicate (index.toNat - arr.length) .nil
                    let s4 := heapSet s3 tid
                      (.table entries (padded.set (index - 1).toNat value))
                    .ok (pushV s4 value)
                  else
                    match key with
                    | .str k =>
                      let s4 := heapSet s3 tid
                        (.table (tableSet entries k value).2 arr)
                      .ok (pushV s4 value)
                    | _ => .interpErr (runtimeError s3)
                | .str k =>
                  let s4 := heapSet s3 tid
                    (.table (tableSet entries k value).2 arr)
                  .ok (pushV s4 value)
                | _ => .interpErr (runtimeError s3)
              | some _ => .interpErr (runtimeError s3)
              | none => .stuck
            | some (_, s3) => .interpErr (runtimeError s3)
            | none => .stuck
          | none => .stuck
        | none => .stuck
      | .opTABLE_ADD =>
        match popV s with
        | some (value, s1) =>
          match peekV s1 0 with
          | some (.obj tid) =>
            match heapGet s1 tid with
            | some (.table entries arr) =>
              .ok (heapSet s1 tid (.table entries (arr ++ [value])))
            | some _ => .interpErr (runtimeError s1)
            | none => .stuck
          | some _ => .interpErr (runtimeError s1)
          | none => .stuck
        | none => .stuck
      | .opTABLE_SET_FIELD =>
        match readString s with
        | some (name, s1) =>
          match popV s1 with
          | some (value, s2) =>
            match peekV s2 0 with
            | some (.obj tid) =>
              match heapGet s2 tid with
              | some (.table entries arr) =>
                .ok (heapSet s2 tid (.table (tableSet entries name value).2 arr))
              | some _ => .interpErr (runtimeError s2)
              | none => .stuck
            | some _ => .interpErr (runtimeError s2)
            | none => .stuck
          | none => .stuck
        | none => .stuck
      | .opTRAIT =>
        match readString s with
        | some (name, s1) =>
          let (tid, s2) := allocObj s1 (.trait name [])
          .ok (pushV s2 (.obj tid))
        | none => .stuck
      | .opIMPLEMENT =>
        match popV s with
        | some (classVal, s1) =>
          match popV s1 with
          | some (traitVal, s2) =>
            match traitVal with
            | .obj trId =>
              match heapGet s2 trId with
              | some (.trait _ traitMethods) =>
                match classVal with
                | .obj kid =>
                  match heapGet s2 kid with
                  | some (.cls n sup methods privs) =>
                    .ok (heapSet s2 kid
                      (.cls n sup (tableAddAll traitMethods methods) privs))
                  | some _ => .interpErr (runtimeError s2)
                  | none => .stuck
                | _ => .interpErr (runtimeError s2)
              | some _ => .interpErr (runtimeError s2)
              | none => .stuck
            | _ => .interpErr (runtimeError s2)
          | none => .stuck
        | none => .stuck

end Luapp

namespace Luapp

/-- Outcome of one iteration of the reduced dispatch loop inside
callClosure: continue, return the call's result (frame count back at the
saved level), return false (CC_FAIL leaves the state exactly as it is, no
stack reset of its own), or C undefined behavior. -/
inductive CCOut where
  | ok (s : VMState)
  | done (result : Value) (s : VMState)
  | fail (s : VMState)
  | stuck
deriving DecidableEq, Repr

/-- OP_CLOSURE upvalue-capture loop as duplicated inside callClosure's
reduced interpreter (byte-for-byte copy of the one in run). -/
def ccCaptureLoop (cid : ObjId) : Nat → Nat → VMState → Option VMState
  | _, 0, s => some s
  | i, n + 1, s => do
    let (isLocal, s1) ← readByte s
    let (index, s2) ← readByte s1
    let f ← topFrame s2
    if isLocal ≠ 0 then do
      let (uid, s3) ← captureUpvalue s2 (f.slots + index)
      let s4 ← setClosureUpvalue s3 cid i (some uid)
      ccCaptureLoop cid (i + 1) n s4
    else
      match heapGet s2 f.closure with
      | some (.closure _ ups) => do
        let u ← ups.get? index
        let s4 ← setClosureUpvalue s2 cid i u
        ccCaptureLoop cid (i + 1) n s4
      | _ => none

/-- One iteration of the reduced dispatch loop inside callClosure (vm.c
lines 1225-1612).  Opcodes absent from this switch (GET_SUPER,
SUPER_INVOKE, CLASS, INHERIT, METHOD, TRAIT, IMPLEMENT) hit the default
case and CC_FAIL; baseFrameCount is the saved frame count the surrounding
call runs back down to. -/
def ccStep (ns : Nat → List Value → Value) (base : Nat) (s : VMState) :
    CCOut :=
  match readByte s with
  | none => .stuck
  | some (b, s) =>
    match decodeOp b with
    | none => .fail s
    | some op =>
      match op with
      | .opRETURN =>
        match popV s with
        | some (returnValue, s1) =>
          match topFrame s1 with
          | some f =>
            let s2 := closeUpvalues s1 f.slots
            let s3 := { s2 with frames := s2.frames.tail }
            if s3.frames.length ≤ base then
              .done returnValue { s3 with stack := s3.stack.take f.slots }
            else
              .ok (pushV { s3 with stack := s3.stack.take f.slots } returnValue)
          | none => .stuck
        | none => .stuck
      | .opCONSTANT =>
        match readConstant s with
        | some (v, s1) => .ok (pushV s1 v)
        | none => .stuck
      | .opNIL => .ok (pushV s .nil)
      | .opTRUE => .ok (pushV s (.bool true))
      | .opFALSE => .ok (pushV s (.bool false))
      | .opPOP =>
        match popV s with
        | some (_, s1) => .ok s1
        | none => .stuck
      | .opGET_LOCAL =>
        match readByte s with
        | some (slot, s1) =>
          match topFrame s1 with
          | some f =>
            match s1.stack.get? (f.slots + slot) with
            | some v => .ok (pushV s1 v)
            | none => .stuck
          | none => .stuck
        | none => .stuck
      | .opSET_LOCAL =>
        match readByte s with
        | some (slot, s1) =>
          match topFrame s1, peekV s1 0 with
          | some f, some v =>
            if f.slots + slot < s1.stack.length then
              .ok { s1 with stack := s1.stack.set (f.slots + slot) v }
            else .stuck
          | _, _ => .stuck
        | none => .stuck
      | .opGET_GLOBAL =>
        match readString s with
        | some (name, s1) =>
          match tableGet s1.globals name with
          | some v => .ok (pushV s1 v)
          | none => .fail s1
        | none => .stuck
      | .opADD =>
        match peekV s 0, peekV s 1 with
        | some (.num b0), some (.num a0) =>
          match popV s with
          | some (_, s1) =>
            match popV s1 with
            | some (_, s2) => .ok (pushV s2 (.num (a0 + b0)))
            | none => .stuck
          | none => .stuck
        | some _, some _ => .fail s
        | _, _ => .stuck
      | .opSUBTRACT =>
        match peekV s 0, peekV s 1 with
        | some (.num b0), some (.num a0) =>
          match popV s with
          | some (_, s1) =>
            match popV s1 with
            | some (_, s2) => .ok (pushV s2 (.num (a0 - b0)))
            | none => .stuck
          | none => .stuck
        | some _, some _ => .fail s
        | _, _ => .stuck
      | .opMULTIPLY =>
        match peekV s 0, peekV s 1 with
        | some (.num b0), some (.num a0) =>
          match popV s with
          | some (_, s1) =>
            match popV s1 with
            | some (_, s2) => .ok (pushV s2 (.num (a0 * b0)))
            | none => .stuck
          | none => .stuck
        | some _, some _ => .fail s
        | _, _ => .stuck
      | .opDIVIDE =>
        match peekV s 0, peekV s 1 with
        | some (.num b0), some (.num a0) =>
          match popV s with
          | some (_, s1) =>
            match popV s1 with
            | some (_, s2) => .ok (pushV s2 (.num (a0 / b0)))
            | none => .stuck
          | none => .stuck
        | some _, some _ => .fail s
        | _, _ => .stuck
      | .opNEGATE =>
        match peekV s 0 with
        | some (.num _) =>
          match popV s with
          | some (.num n, s1) => .ok (pushV s1 (.num (-n)))
          | _ => .stuck
        | some _ => .fail s
        | none => .stuck
      | .opNOT =>
        match popV s with
        | some (v, s1) => .ok (pushV s1 (.bool (isFalsey v)))
        | none => .stuck
      | .opLESS =>
        match peekV s 0, peekV s 1 with
        | some (.num b0), some (.num a0) =>
          match popV s with
          | some (_, s1) =>
            match popV s1 with
            | some (_, s2) => .ok (pushV s2 (.bool (decide (a0 < b0))))
            | none => .stuck
          | none => .stuck
        | some _, some _ => .fail s
        | _, _ => .stuck
      | .opGREATER =>
        match peekV s 0, peekV s 1 with
        | some (.num b0), some (.num a0) =>
          match popV s with
          | some (_, s1) =>
            match popV s1 with
            | some (_, s2) => .ok (pushV s2 (.bool (decide (a0 > b0))))
            | none => .stuck
          | none => .stuck
        | some _, some _ => .fail s
        | _, _ => .stuck
      | .opEQUAL =>
        match popV s with
        | some (b0, s1) =>
          match popV s1 with
          | some (a0, s2) => .ok (pushV s2 (.bool (valuesEqual a0 b0)))
          | none => .stuck
        | none => .stuck
      | .opJUMP =>
        match readShort s with
        | some (offset, s1) =>
          match topFrame s1 with
          | some f => .ok (setTopFrame s1 { f with ip := f.ip + offset })
          | none => .stuck
        | none => .stuck
      | .opJUMP_IF_FALSE =>
        match readShort s with
        | some (offset, s1) =>
          match topFrame s1, peekV s1 0 with
          | some f, some v =>
            if isFalsey v then .ok (setTopFrame s1 { f with ip := f.ip + offset })
            else .ok s1
          | _, _ => .stuck
        | none => .stuck
      | .opLOOP =>
        match readShort s with
        | some (offset, s1) =>
          match topFrame s1 with
          | some f => .ok (setTopFrame s1 { f with ip := f.ip - offset })
          | none => .stuck
        | none => .stuck
      | .opCALL =>
        match readByte s with
        | some (callArgCount, s1) =>
          match peekV s1 callArgCount with
          | some callee =>
            match callValue ns s1 callee callArgCount with
            | some (true, s2) => .ok s2
            | some (false, s2) => .fail s2
            | none => .stuck
          | none => .stuck
        | none => .stuck
      | .opCONCAT =>
        match peekV s 0, peekV s 1 with
        | some (.str sb), some (.str sa) =>
          match popV s with
          | some (_, s1) =>
            match popV s1 with
            | some (_, s2) => .ok (pushV s2 (.str (sa ++ sb)))
            | none => .stuck
          | none => .stuck
        | some _, some _ => .fail s
        | _, _ => .stuck
      | .opPOPN =>
        match readByte s with
        | some (n, s1) =>
          .ok { s1 with stack := s1.stack.take (s1.stack.length - n) }
        | none => .stuck
      | .opGET_UPVALUE =>
        match readByte s with
        | some (slot, s1) =>
          match topFrame s1 with
          | some f =>
            match heapGet s1 f.closure with
            | some (.closure _ ups) =>
              match ups.get? slot with
              | some (some uid) =>
                match readUpvalue s1 uid with
                | some v => .ok (pushV s1 v)
                | none => .stuck
              | _ => .stuck
            | _ => .stuck
          | none => .stuck
        | none => .stuck
      | .opSET_UPVALUE =>
        match readByte s with
        | some (slot, s1) =>
          match topFrame s1, peekV s1 0 with
          | some f, some v =>
            match heapGet s1 f.closure with
            | some (.closure _ ups) =>
              match ups.get? slot with
              | some (some uid) =>
                match writeUpvalue s1 uid v with
                | some s2 => .ok s2
                | none => .stuck
              | _ => .stuck
            | _ => .stuck
          | _, _ => .stuck
        | none => .stuck
      | .opCLOSE_UPVALUE =>
        let s1 := closeUpvalues s (s.stack.length - 1)
        match popV s1 with
        | some (_, s2) => .ok s2
        | none => .stuck
      | .opCLOSURE =>
        match readConstant s with
        | some (.obj fnId, s1) =>
          match heapGet s1 fnId with
          | some (.function _ upc _ _) =>
            let (cid, s2) := allocObj s1 (.closure fnId (List.replicate upc none))
            match ccCaptureLoop cid 0 upc (pushV s2 (.obj cid)) with
            | some s3 => .ok s3
            | none => .stuck
          | _ => .stuck
        | some _ => .stuck
        | none => .stuck
      | .opSET_GLOBAL =>
        match readString s with
        | some (name, s1) =>
          match peekV s1 0 with
          | some v =>
            let (isNew, g) := tableSet s1.globals name v
            if isNew then
              .fail { s1 with globals := tableDelete g name }
            else .ok { s1 with globals := g }
          | none => .stuck
        | none => .stuck
      | .opDEFINE_GLOBAL =>
        match readString s with
        | some (name, s1) =>
          match peekV s1 0 with
          | some v =>
            let s2 := { s1 with globals := (tableSet s1.globals name v).2 }
            match popV s2 with
            | some (_, s3) => .ok s3
            | none => .stuck
          | none => .stuck
        | none => .stuck
      | .opGET_PROPERTY =>
        match peekV s 0 with
        | some (.obj iid) =>
          match heapGet s iid with
          | some (.inst klass fields) =>
            match readString s with
            | some (name, s1) =>
              match tableGet fields name with
              | some value =>
                match popV s1 with
                | some (_, s2) => .ok (pushV s2 value)
                | none => .stuck
              | none =>
                match bindMethod s1 klass name with
                | some (true, s2) => .ok s2
                | some (false, s2) => .fail s2
                | none => .stuck
            | none => .stuck
          | some _ => .fail s
          | none => .stuck
        | some _ => .fail s
        | none => .stuck
      | .opSET_PROPERTY =>
        match peekV s 1 with
        | some (.obj iid) =>
          match heapGet s iid with
          | some (.inst klass fields) =>
            match readString s, peekV s 0 with
            | some (name, s1), some v =>
              let s2 := heapSet s1 iid (.inst klass (tableSet fields name v).2)
              match popV s2 with
              | some (value, s3) =>
                match popV s3 with
                | some (_, s4) => .ok (pushV s4 value)
                | none => .stuck
              | none => .stuck
            | _, _ => .stuck
          | some _ => .fail s
          | none => .stuck
        | some _ => .fail s
        | none => .stuck
      | .opINVOKE =>
        match readString s with
        | some (name, s1) =>
          match readByte s1 with
          | some (invokeArgCount, s2) =>
            match invoke ns s2 name invokeArgCount with
            | some (true, s3) => .ok s3
            | some (false, s3) => .fail s3
            | none => .stuck
          | none => .stuck
        | none => .stuck
      | .opNEW =>
        match readByte s with
        | some (newArgCount, s1) =>
          match peekV s1 newArgCount with
          | some (.obj kid) =>
            match heapGet s1 kid with
            | some (.cls _ _ methods _) =>
              let (iid, s2) := allocObj s1 (.inst kid [])
              let s3 := setFromTop s2 newArgCount (.obj iid)
              match tableGet methods initName with
              | some (.obj mid) =>
                match call s3 mid newArgCount with
                | some (true, s4) => .ok s4
                | some (false, s4) => .fail s4
                | none => .stuck
              | some _ => .stuck
              | none =>
                if newArgCount ≠ 0 then .fail s3
                else .ok s3
            | some _ => .fail s1
            | none => .stuck
          | some _ => .fail s1
          | none => .stuck
        | none => .stuck
      | .opTABLE =>
        let (tid, s1) := allocObj s (.table [] [])
        .ok (pushV s1 (.obj tid))
      | .opTABLE_GET =>
        match popV s with
        | some (key, s1) =>
          match popV s1 with
          | some (.obj tid, s2) =>
            match heapGet s2 tid with
            | some (.table entries arr) =>
              match key with
              | .num n =>
                let index := cint n
                if 1 ≤ index ∧ index ≤ arr.length then
                  .ok (pushV s2 (arr.getD (index - 1).toNat .nil))
                else .ok (pushV s2 .nil)
              | .str k =>
                match tableGet entries k with
                | some v => .ok (pushV s2 v)
                | none => .ok (pushV s2 .nil)
              | _ => .ok (pushV s2 .nil)
            | some _ => .fail s2
            | none => .stuck
          | some (_, s2) => .fail s2
          | none => .stuck
        | none => .stuck
      | .opTABLE_SET =>
        match popV s with
        | some (value, s1) =>
          match popV s1 with
          | some (key, s2) =>
            match popV s2 with
            | some (.obj tid, s3) =>
              match heapGet s3 tid with
              | some (.table entries arr) =>
                match key with
                | .num n =>
                  let index := cint n
                  if 1 ≤ index then
                    let padded := arr ++ List.replicate (index.toNat - arr.length) .nil
                    let s4 := heapSet s3 tid
                      (.table entries (padded.set (index - 1).toNat value))
                    .ok (pushV s4 value)
                  else .fail s3
                | .str k =>
                  let s4 := heapSet s3 tid
                    (.table (tableSet entries k value).2 arr)
                  .ok (pushV s4 value)
                | _ => .fail s3
              | some _ => .fail s3
              | none => .stuck
            | some (_, s3) => .fail s3
            | none => .stuck
          | none => .stuck
        | none => .stuck
      | .opTABLE_ADD =>
        match popV s with
        | some (value, s1) =>
          match peekV s1 0 with
          | some (.obj tid) =>
            match heapGet s1 tid with
            | some (.table entries arr) =>
              .ok (heapSet s1 tid (.table entries (arr ++ [value])))
            | some _ => .fail s1
            | none => .stuck
          | some _ => .fail s1
          | none => .stuck
        | none => .stuck
      | .opTABLE_SET_FIELD =>
        match readString s with
        | some (name, s1) =>
          match popV s1 with
          | some (value, s2) =>
            match peekV s2 0 with
            | some (.obj tid) =>
              match heapGet s2 tid with
              | some (.table entries arr) =>
                .ok (heapSet s2 tid (.table (tableSet entries name value).2 arr))
              | some _ => .fail s2
              | none => .stuck
            | some _ => .fail s2
            | none => .stuck
          | none => .stuck
        | none => .stuck
      | .opMODULO =>
        match peekV s 0, peekV s 1 with
        | some (.num b0), some (.num a0) =>
          if cint b0 = 0 then .stuck
          else
            match popV s with
            | some (_, s1) =>
              match popV s1 with
              | some (_, s2) =>
                .ok (pushV s2 (.num ((cmod (cint a0) (cint b0) : Int) : ℚ)))
              | none => .stuck
            | none => .stuck
        | some _, some _ => .fail s
        | _, _ => .stuck
      | .opLENGTH =>
        match popV s with
        | some (.str cs, s1) => .ok (pushV s1 (.num cs.length))
        | some (.obj tid, s1) =>
          match heapGet s1 tid with
          | some (.table _ arr) => .ok (pushV s1 (.num arr.length))
          | some _ => .fail s1
          | none => .stuck
        | some (_, s1) => .fail s1
        | none => .stuck
      | .opGET_SUPER => .fail s
      | .opSUPER_INVOKE => .fail s
      | .opCLASS => .fail s
      | .opINHERIT => .fail s
      | .opMETHOD => .fail s
      | .opTRAIT => .fail s
      | .opIMPLEMENT => .fail s

end Luapp

namespace Luapp

/-- Result of the whole run loop (with explicit fuel in the model). -/
inductive RunResult where
  | interpOk (s : VMState)
  | interpErr (s : VMState)
  | noFuel (s : VMState)
  | stuck
deriving DecidableEq, Repr

/-- The run loop of vm.c iterated with fuel. -/
def runLoop (ns : Nat → List Value → Value) : Nat → VMState → RunResult
  | 0, s => .noFuel s
  | n + 1, s =>
    match runStep ns s with
    | .ok s1 => runLoop ns n s1
    | .interpOk s1 => .interpOk s1
    | .interpErr s1 => .interpErr s1
    | .stuck => .stuck

/-- Result of callClosure: success with the returned value, failure (the C
function returns false; the state is whatever the failure path left), or
out of fuel / undefined behavior in the model. -/
inductive CCResult where
  | success (result : Value) (s : VMState)
  | failure (s : VMState)
  | noFuel (s : VMState)
  | stuck
deriving DecidableEq, Repr

/-- The reduced dispatch loop of callClosure iterated with fuel. -/
def ccLoop (ns : Nat → List Value → Value) (base : Nat) :
    Nat → VMState → CCResult
  | 0, s => .noFuel s
  | n + 1, s =>
    match ccStep ns base s with
    | .ok s1 => ccLoop ns base n s1
    | .done v s1 => .success v s1
    | .fail s1 => .failure s1
    | .stuck => .stuck

/-- callClosure from vm.c: arity check, save the frame count, push callee
and arguments, set up the frame via call, then run the reduced loop until
the frame count returns to the saved level. -/
def callClosure (ns : Nat → List Value → Value) (fuel : Nat) (s : VMState)
    (cid : ObjId) (args : List Value) : CCResult :=
  match heapGet s cid with
  | some (.closure fn _) =>
    match heapGet s fn with
    | some (.function arity _ _ _) =>
      if args.length ≠ arity then .failure s
      else
        let base := s.frames.length
        let s1 := args.foldl pushV (pushV s (.obj cid))
        match call s1 cid args.length with
        | some (true, s2) => ccLoop ns base fuel s2
        | some (false, s2) =>
          .failure { s2 with
            stack := s2.stack.take (s2.stack.length - (args.length + 1)) }
        | none => .stuck
    | _ => .stuck
  | _ => .stuck

end Luapp

namespace Luapp

/-! Compiler embedding (compiler.c): bytecode emission, constant folding,
loop statements, scope analysis, property/method call emission. -/

/-- Compiler options from compiler.c (both default to true). -/
structure CompilerOptions where
  eliminateDeadCode : Bool
  warnUnusedVariables : Bool
deriving DecidableEq, Repr

/-- Emission state: the chunk being written plus the parser error flag. -/
structure CState where
  chunk : Chunk
  hadError : Bool
deriving DecidableEq, Repr

/-- Modelled from the spec: chunk.c is not under src/; writeChunk appends
one byte to the growable code array. -/
def writeChunk (c : Chunk) (b : Nat) : Chunk :=
  { c with code := c.code ++ [b] }

/-- emitByte from compiler.c. -/
def emitByte (cs : CState) (b : Nat) : CState :=
  { cs with chunk := writeChunk cs.chunk b }

/-- emitBytes from compiler.c. -/
def emitBytes (cs : CState) (b1 b2 : Nat) : CState :=
  emitByte (emitByte cs b1) b2

/-- Modelled from the spec: addConstant appends to the constant pool and
returns the new index. -/
def addConstant (c : Chunk) (v : Value) : Chunk × Nat :=
  ({ c with constants := c.constants ++ [v] }, c.constants.length)

/-- makeConstant from compiler.c: indexes beyond 255 raise a compile error
and emit index 0 (the pool has grown regardless). -/
def makeConstant (cs : CState) (v : Value) : CState × Nat :=
  let (ch, idx) := addConstant cs.chunk v
  if idx > 255 then ({ chunk := ch, hadError := true }, 0)
  else ({ cs with chunk := ch }, idx)

/-- emitConstant from compiler.c. -/
def emitConstant (cs : CState) (v : Value) : CState :=
  let (cs1, idx) := makeConstant cs v
  emitBytes cs1 (Op.toByte .opCONSTANT) idx

/-- emitLoop from compiler.c: backward jump whose operand counts from after
the two offset bytes back to loopStart. -/
def emitLoop (cs : CState) (loopStart : Nat) : CState :=
  let cs1 := emitByte cs (Op.toByte .opLOOP)
  let offset := cs1.chunk.code.length - loopStart + 2
  let cs2 := if offset > 65535 then { cs1 with hadError := true } else cs1
  emitByte (emitByte cs2 ((offset / 256) % 256)) (offset % 256)

/-- emitJump from compiler.c: emit the opcode and a two-byte placeholder,
returning the placeholder position. -/
def emitJump (cs : CState) (instruction : Nat) : CState × Nat :=
  let cs1 := emitByte (emitByte (emitByte cs instruction) 255) 255
  (cs1, cs1.chunk.code.length - 2)

/-- patchJump from compiler.c. -/
def patchJump (cs : CState) (offset : Nat) : CState :=
  let jump := cs.chunk.code.length - offset - 2
  let cs1 := if jump > 65535 then { cs with hadError := true } else cs
  let code1 := (cs1.chunk.code.set offset ((jump / 256) % 256)).set (offset + 1) (jump % 256)
  { cs1 with chunk := { cs1.chunk with code := code1 } }

/-- lastWasConstant from compiler.c: the two most recent bytes are an
OP_CONSTANT instruction; yields the constant it pushes. -/
def lastWasConstant (c : Chunk) : Option Value :=
  if c.code.length < 2 then none
  else
    match c.code.get? (c.code.length - 2) with
    | some op =>
      if op ≠ Op.toByte .opCONSTANT then none
      else
        match c.code.get? (c.code.length - 1) with
        | some idx => c.constants.get? idx
        | none => none
    | none => none

/-- removeLastConstant from compiler.c: drop the last two code bytes. -/
def removeLastConstant (c : Chunk) : Chunk :=
  { c with code := c.code.take (c.code.length - 2) }

/-- lastTwoWereConstants from compiler.c: bytes at count-2 and count-4 are
both OP_CONSTANT; yields the two constants (first, second). -/
def lastTwoWereConstants (c : Chunk) : Option (Value × Value) :=
  if c.code.length < 4 then none
  else
    match c.code.get? (c.code.length - 2), c.code.get? (c.code.length - 4) with
    | some op1, some op2 =>
      if op1 ≠ Op.toByte .opCONSTANT then none
      else if op2 ≠ Op.toByte .opCONSTANT then none
      else
        match c.code.get? (c.code.length - 1), c.code.get? (c.code.length - 3) with
        | some idxB, some idxA =>
          match c.constants.get? idxA, c.constants.get? idxB with
          | some a, some b => some (a, b)
          | _, _ => none
        | _, _ => none
    | _, _ => none

/-- removeLastTwoConstants from compiler.c: drop the last four code bytes. -/
def removeLastTwoConstants (c : Chunk) : Chunk :=
  { c with code := c.code.take (c.code.length - 4) }

/-- Binary operator tokens handled by binary() in compiler.c, plus the
unary tokens of unary(). -/
inductive TokOp where
  | tPLUS | tMINUS | tSTAR | tSLASH | tPERCENT | tDOT_DOT
  | tEQUAL_EQUAL | tTILDE_EQUAL
  | tGREATER | tGREATER_EQUAL | tLESS | tLESS_EQUAL
  | tNOT
deriving DecidableEq, Repr

/-- isFalseyValue from compiler.c (the compiler's own copy of isFalsey). -/
def isFalseyValue (v : Value) : Bool :=
  match v with
  | .nil => true
  | .bool b => !b
  | _ => false

/-- Outcome of the number-number folding switch of binary(): a folded
value, not folded (fall through to the later checks), or compile-time C
undefined behavior (modulo by a nonzero double that truncates to int 0). -/
inductive FoldArithRes where
  | folded (v : Value)
  | nofold
  | ub
deriving DecidableEq, Repr

/-- The arithmetic/comparison folding switch of binary() (both operands
numbers); division and modulo by zero are not folded. -/
def foldArith (op : TokOp) (x y : ℚ) : FoldArithRes :=
  match op with
  | .tPLUS => .folded (.num (x + y))
  | .tMINUS => .folded (.num (x - y))
  | .tSTAR => .folded (.num (x * y))
  | .tSLASH => if y ≠ 0 then .folded (.num (x / y)) else .nofold
  | .tPERCENT =>
    if y ≠ 0 then
      if cint y = 0 then .ub
      else .folded (.num ((cmod (cint x) (cint y) : Int) : ℚ))
    else .nofold
  | .tGREATER => .folded (.bool (decide (x > y)))
  | .tGREATER_EQUAL => .folded (.bool (decide (x ≥ y)))
  | .tLESS => .folded (.bool (decide (x < y)))
  | .tLESS_EQUAL => .folded (.bool (decide (x ≤ y)))
  | .tEQUAL_EQUAL => .folded (.bool (decide (x = y)))
  | .tTILDE_EQUAL => .folded (.bool (decide (x ≠ y)))
  | _ => .nofold

/-- The non-folded emission switch at the end of binary(). -/
def binaryNormalEmit (op : TokOp) (cs : CState) : CState :=
  match op with
  | .tPLUS => emitByte cs (Op.toByte .opADD)
  | .tMINUS => emitByte cs (Op.toByte .opSUBTRACT)
  | .tSTAR => emitByte cs (Op.toByte .opMULTIPLY)
  | .tSLASH => emitByte cs (Op.toByte .opDIVIDE)
  | .tPERCENT => emitByte cs (Op.toByte .opMODULO)
  | .tDOT_DOT => emitByte cs (Op.toByte .opCONCAT)
  | .tEQUAL_EQUAL => emitByte cs (Op.toByte .opEQUAL)
  | .tTILDE_EQUAL => emitByte (emitByte cs (Op.toByte .opEQUAL)) (Op.toByte .opNOT)
  | .tGREATER => emitByte cs (Op.toByte .opGREATER)
  | .tGREATER_EQUAL => emitByte (emitByte cs (Op.toByte .opLESS)) (Op.toByte .opNOT)
  | .tLESS => emitByte cs (Op.toByte .opLESS)
  | .tLESS_EQUAL => emitByte (emitByte cs (Op.toByte .opGREATER)) (Op.toByte .opNOT)
  | .tNOT => cs

/-- Checks of binary() that follow the arithmetic block: string
concatenation folding, then general literal equality folding, then normal
emission. -/
def binaryAfterArith (op : TokOp) (a b : Value) (cs : CState) : CState :=
  match a, b, op with
  | .str sa, .str sb, .tDOT_DOT =>
    emitConstant { cs with chunk := removeLastTwoConstants cs.chunk }
      (.str (sa ++ sb))
  | _, _, _ =>
    if op = .tEQUAL_EQUAL ∨ op = .tTILDE_EQUAL then
      let equal := valuesEqual a b
      emitConstant { cs with chunk := removeLastTwoConstants cs.chunk }
        (.bool (if op = .tEQUAL_EQUAL then equal else !equal))
    else binaryNormalEmit op cs

/-- binary() from compiler.c, from the point where the right operand has
been compiled: inspect the last two instructions and fold when possible
(none encodes compile-time C undefined behavior in the modulo fold). -/
def binaryEmit (op : TokOp) (cs : CState) : Option CState :=
  match lastTwoWereConstants cs.chunk with
  | some (a, b) =>
    match a, b with
    | .num x, .num y =>
      match foldArith op x y with
      | .folded r =>
        some (emitConstant { cs with chunk := removeLastTwoConstants cs.chunk } r)
      | .nofold => some (binaryAfterArith op a b cs)
      | .ub => none
    | _, _ => some (binaryAfterArith op a b cs)
  | none => some (binaryNormalEmit op cs)

/-- unary() from compiler.c, from the point where the operand has been
compiled: fold minus on a number constant and not on any constant. -/
def unaryEmit (op : TokOp) (cs : CState) : CState :=
  match lastWasConstant cs.chunk with
  | some val =>
    match op with
    | .tMINUS =>
      match val with
      | .num n =>
        emitConstant { cs with chunk := removeLastConstant cs.chunk } (.num (-n))
      | _ => emitByte cs (Op.toByte .opNEGATE)
    | .tNOT =>
      emitConstant { cs with chunk := removeLastConstant cs.chunk }
        (.bool (isFalseyValue val))
    | _ => cs
  | none =>
    match op with
    | .tMINUS => emitByte cs (Op.toByte .opNEGATE)
    | .tNOT => emitByte cs (Op.toByte .opNOT)
    | _ => cs

end Luapp

namespace Luapp

/-- Loop-tracking record of compiler.c.  The continueTarget field is
Option: none models the C field before it has been assigned (forStatement
assigns it only after the body has been compiled; whileStatement and
repeatStatement assign it before). -/
structure CLoop where
  start : Nat
  continueTarget : Option Nat
  breakJumps : List Nat
deriving DecidableEq, Repr

/-- Loop-body statements relevant to the continue-target claim. -/
inductive BodyStmt where
  | contStmt
deriving DecidableEq, Repr

/-- continueStatement from compiler.c: pop the locals that live deeper than
the loop, then emit a LOOP back to the loop's continue target.  Reading the
target while it is still unassigned is C indeterminate, hence none. -/
def continueStatement (deepLocals : Nat) (loop : CLoop) (cs : CState) :
    Option CState :=
  let cs1 := (List.range deepLocals).foldl
    (fun acc _ => emitByte acc (Op.toByte .opPOP)) cs
  match loop.continueTarget with
  | some t => some (emitLoop cs1 t)
  | none => none

/-- Compilation of a loop body made of the statements above, against the
loop record in effect while the body is being parsed. -/
def compileLoopBody (loop : CLoop) : List BodyStmt → CState → Option CState
  | [], cs => some cs
  | .contStmt :: rest, cs => do
    let cs1 ← continueStatement 0 loop cs
    compileLoopBody loop rest cs1

/-- whileStatement from compiler.c (condition bytecode passed in): the loop
record, including continueTarget = loop top, is installed before the
condition and body are compiled. -/
def whileStatement (condCode : List Nat) (body : List BodyStmt)
    (cs : CState) : Option CState := do
  let loopStart := cs.chunk.code.length
  let loop0 : CLoop :=
    { start := loopStart, continueTarget := some loopStart, breakJumps := [] }
  let cs1 := condCode.foldl emitByte cs
  let (cs2, exitJump) := emitJump cs1 (Op.toByte .opJUMP_IF_FALSE)
  let cs3 := emitByte cs2 (Op.toByte .opPOP)
  let cs4 ← compileLoopBody loop0 body cs3
  let cs5 := emitLoop cs4 loopStart
  let cs6 := patchJump cs5 exitJump
  some (emitByte cs6 (Op.toByte .opPOP))

/-- repeatStatement from compiler.c: continue target is the top of the
body, installed before the body is compiled. -/
def repeatStatement (condCode : List Nat) (body : List BodyStmt)
    (cs : CState) : Option CState := do
  let loopStart := cs.chunk.code.length
  let loop0 : CLoop :=
    { start := loopStart, continueTarget := some loopStart, breakJumps := [] }
  let cs1 ← compileLoopBody loop0 body cs
  let cs2 := condCode.foldl emitByte cs1
  let (cs3, exitJump) := emitJump cs2 (Op.toByte .opJUMP_IF_FALSE)
  let cs4 := emitByte cs3 (Op.toByte .opPOP)
  let cs5 := emitLoop cs4 loopStart
  let cs6 := patchJump cs5 exitJump
  some (emitByte cs6 (Op.toByte .opPOP))

/-- forStatement from compiler.c (initializer bytecode passed in;
localBase is the localCount after the three loop locals).  The loop record
is created with continueTarget unassigned; the source assigns it only
after block() has already compiled the body, so every continue in the body
reads the unassigned field. -/
def forStatement (localBase : Nat) (startCode limitCode stepCode : List Nat)
    (body : List BodyStmt) (cs : CState) : Option CState := do
  let cs1 := startCode.foldl emitByte cs
  let cs2 := limitCode.foldl emitByte cs1
  let cs3 := stepCode.foldl emitByte cs2
  let loopStart := cs3.chunk.code.length
  let loop0 : CLoop :=
    { start := loopStart, continueTarget := none, breakJumps := [] }
  let cs4 := emitBytes cs3 (Op.toByte .opGET_LOCAL) (localBase - 3)
  let cs5 := emitBytes cs4 (Op.toByte .opGET_LOCAL) (localBase - 2)
  let cs6 := emitByte cs5 (Op.toByte .opGREATER)
  let cs7 := emitByte cs6 (Op.toByte .opNOT)
  let (cs8, exitJump) := emitJump cs7 (Op.toByte .opJUMP_IF_FALSE)
  let cs9 := emitByte cs8 (Op.toByte .opPOP)
  let cs10 ← compileLoopBody loop0 body cs9
  let cs11 := emitBytes cs10 (Op.toByte .opGET_LOCAL) (localBase - 3)
  let cs12 := emitBytes cs11 (Op.toByte .opGET_LOCAL) (localBase - 1)
  let cs13 := emitByte cs12 (Op.toByte .opADD)
  let cs14 := emitBytes cs13 (Op.toByte .opSET_LOCAL) (localBase - 3)
  let cs15 := emitByte cs14 (Op.toByte .opPOP)
  let cs16 := emitLoop cs15 loopStart
  let cs17 := patchJump cs16 exitJump
  some (emitByte cs17 (Op.toByte .opPOP))

/-- Decoded target of a LOOP instruction found at position p: the runtime
subtracts the 16-bit operand from the cursor after the operand bytes. -/
def loopTargetAt (code : List Nat) (p : Nat) : Option Nat := do
  let b ← code.get? p
  if b = Op.toByte .opLOOP then
    let hi ← code.get? (p + 1)
    let lo ← code.get? (p + 2)
    some (p + 3 - (hi * 256 + lo))
  else none

/-- Whitelist check of isSideEffectFree (the first switch): opcodes allowed
inside a removable initializer. -/
def sefWhitelisted (op : Op) : Bool :=
  match op with
  | .opCONSTANT | .opNIL | .opTRUE | .opFALSE | .opGET_LOCAL
  | .opADD | .opSUBTRACT | .opMULTIPLY | .opDIVIDE | .opMODULO
  | .opNEGATE | .opNOT | .opEQUAL | .opGREATER | .opLESS
  | .opCONCAT | .opLENGTH
  | .opTABLE | .opTABLE_ADD | .opTABLE_SET_FIELD => true
  | _ => false

/-- Operand-size advance of isSideEffectFree (the second switch). -/
def sefAdvance (op : Op) : Nat :=
  match op with
  | .opCONSTANT | .opGET_LOCAL | .opSET_LOCAL
  | .opGET_UPVALUE | .opSET_UPVALUE
  | .opGET_GLOBAL | .opSET_GLOBAL | .opDEFINE_GLOBAL
  | .opCALL | .opTABLE_SET_FIELD => 2
  | .opJUMP | .opJUMP_IF_FALSE | .opLOOP => 3
  | _ => 1

/-- Scan loop of isSideEffectFree from compiler.c. -/
def isfGo (c : Chunk) (endPos : Nat) : Nat → Nat → Bool
  | _, 0 => true
  | i, fuel + 1 =>
    if i < endPos then
      match decodeOp (c.code.getD i 0) with
      | some op =>
        if sefWhitelisted op then isfGo c endPos (i + sefAdvance op) fuel
        else false
      | none => false
    else true

/-- isSideEffectFree from compiler.c: true when the bytecode range holds
only whitelisted opcodes.  The fuel endPos - start bounds the loop
iterations: every opcode advances the position by at least one byte, so the
fuel never runs out before the scan completes. -/
def isSideEffectFree (c : Chunk) (start endPos : Nat) : Bool :=
  isfGo c endPos start (endPos - start)

/-- Per-local fields of the Local record consulted by endScope. -/
structure LocalInfo where
  nameLen : Nat
  nameHead : Char
  isCaptured : Bool
  isUsed : Bool
  initBytecodeStart : Int
  initBytecodeEnd : Int
deriving DecidableEq, Repr

/-- What endScope does with one local going out of scope. -/
structure EndScopeResult where
  warned : Bool
  dceConsidered : Bool
  emitted : List Nat
deriving DecidableEq, Repr

/-- Processing of one local by endScope in compiler.c: the unused-variable
warning fires for every unused named local whose name does not start with
an underscore; the isSideEffectFree test only guards the dead-store
elimination branch, whose body is empty (it rewrites no bytecode); finally
one CLOSE_UPVALUE or POP is emitted. -/
def endScopeLocal (opts : CompilerOptions) (c : Chunk) (l : LocalInfo) :
    EndScopeResult :=
  let unusedNamed :=
    !l.isUsed && decide (0 < l.nameLen) && decide (l.nameHead ≠ '_')
  let warned := unusedNamed && opts.warnUnusedVariables
  let dce := unusedNamed && opts.eliminateDeadCode &&
    decide (0 ≤ l.initBytecodeStart) &&
    decide (l.initBytecodeStart < l.initBytecodeEnd) &&
    !l.isCaptured &&
    isSideEffectFree c l.initBytecodeStart.toNat l.initBytecodeEnd.toNat
  { warned := warned
    dceConsidered := dce
    emitted :=
      [if l.isCaptured then Op.toByte .opCLOSE_UPVALUE else Op.toByte .opPOP] }

/-- What follows the property name in dot() of compiler.c. -/
inductive DotFollow where
  | assign (exprCode : List Nat)
  | callArgs (argsCode : List Nat) (argCount : Nat)
  | plain
deriving DecidableEq, Repr

/-- dot() from compiler.c, after the receiver has been compiled: assignment
emits SET_PROPERTY, a parenthesis starts an INVOKE method call, and a bare
access emits GET_PROPERTY. -/
def dotEmit (canAssign : Bool) (nameConst : Nat) (follow : DotFollow)
    (cs : CState) : CState :=
  match follow with
  | .assign exprCode =>
    if canAssign then
      emitBytes (exprCode.foldl emitByte cs) (Op.toByte .opSET_PROPERTY)
        nameConst
    else emitBytes cs (Op.toByte .opGET_PROPERTY) nameConst
  | .callArgs argsCode argCount =>
    emitByte
      (emitBytes (argsCode.foldl emitByte cs) (Op.toByte .opINVOKE) nameConst)
      argCount
  | .plain => emitBytes cs (Op.toByte .opGET_PROPERTY) nameConst

/-- colon() from compiler.c, after the receiver has been compiled: always a
method call, emitting the same INVOKE as dot(). -/
def colonEmit (nameConst : Nat) (argsCode : List Nat) (argCount : Nat)
    (cs : CState) : CState :=
  emitByte
    (emitBytes (argsCode.foldl emitByte cs) (Op.toByte .opINVOKE) nameConst)
    argCount

/-- Compilation of the call form obj.name(args): receiver first, then
dot() with a parenthesis following the name. -/
def dotCallCompiled (canAssign : Bool) (recvCode : List Nat) (nameConst : Nat)
    (argsCode : List Nat) (argCount : Nat) (cs : CState) : CState :=
  dotEmit canAssign nameConst (.callArgs argsCode argCount)
    (recvCode.foldl emitByte cs)

/-- Compilation of the call form obj:name(args): receiver first, then
colon(). -/
def colonCallCompiled (recvCode : List Nat) (nameConst : Nat)
    (argsCode : List Nat) (argCount : Nat) (cs : CState) : CState :=
  colonEmit nameConst argsCode argCount (recvCode.foldl emitByte cs)

/-- string() from compiler.c: the constant is the token text with the first
character and the last character stripped (start+1, length-2); escape
sequences are not translated. -/
def stringConstantOfToken (tok : List Char) : List Char :=
  (tok.drop 1).take (tok.length - 2)

/-- string() emission: push the stripped token text as a string constant. -/
def stringEmit (tok : List Char) (cs : CState) : CState :=
  emitConstant cs (.str (stringConstantOfToken tok))

/-- Scan loop of string(quote) in the lexer: returns how many characters
after the opening quote belong to the token (closing quote included), or
none for an unterminated string.  A backslash followed by any character
skips both, so escapes stay verbatim in the token text. -/
def lexQuoted (quote : Char) : List Char → Option Nat
  | [] => none
  | c :: rest =>
    if c = quote then some 1
    else if c = '\n' then (lexQuoted quote rest).map (· + 1)
    else if c = '\\' then
      match rest with
      | [] => (lexQuoted quote []).map (· + 1)
      | _ :: rest2 => (lexQuoted quote rest2).map (· + 2)
    else (lexQuoted quote rest).map (· + 1)

/-- Scan loop of longString() in the lexer: consumed characters after the
opening double bracket, the closing double bracket included. -/
def lexLong : List Char → Option Nat
  | [] => none
  | c :: rest =>
    if c = ']' ∧ rest.head? = some ']' then some 2
    else (lexLong rest).map (· + 1)

/-- String-literal paths of scanToken: a quote starts string(quote), an
opening double bracket starts longString(); the returned token text spans
from the first delimiter character through the last. -/
def scanStringToken : List Char → Option (List Char)
  | [] => none
  | c :: rest =>
    if c = '\"' ∨ c = '\'' then
      (lexQuoted c rest).map (fun n => (c :: rest).take (1 + n))
    else if c = '[' then
      match rest with
      | c2 :: rest2 =>
        if c2 = '[' then (lexLong rest2).map (fun n => (c :: rest).take (2 + n))
        else none
      | [] => none
    else none

end Luapp

namespace Luapp

namespace GCM

/-!
GC model (memory.c + object.c).  Here strings are heap objects with
identities, as in the C runtime; a Value contributes at most one object
reference, so value-typed fields appear as Option Nat.
-/

/-- Heap object payloads as seen by the collector.  The reference fields
mirror object.h; table-valued fields are lists of (string-key id, value
reference). -/
inductive GObj where
  | str
  | native (name : Nat)
  | upvalue (closed : Option Nat)
  | function (name : Option Nat) (constants : List (Option Nat))
  | closure (fn : Nat) (upvalues : List (Option Nat))
  | cls (name : Nat) (superclass : Option Nat)
      (methods : List (Nat × Option Nat)) (privates : List (Nat × Option Nat))
  | inst (klass : Nat) (fields : List (Nat × Option Nat))
  | bound (receiver : Option Nat) (method : Nat)
  | table (entries : List (Nat × Option Nat)) (array : List (Option Nat))
  | trait (name : Nat) (methods : List (Nat × Option Nat))
deriving DecidableEq, Repr

/-- Mark state: the set of marked ids (the mark bits) and the gray
worklist. -/
structure GCSt where
  marked : List Nat
  gray : List Nat
deriving DecidableEq, Repr

/-- markObject from object.c: ignore already-marked objects, otherwise set
the bit and push onto the gray stack. -/
def markObject (st : GCSt) (id : Nat) : GCSt :=
  if id ∈ st.marked then st
  else { marked := id :: st.marked, gray := id :: st.gray }

/-- markObject on a nullable reference (markObject returns on NULL;
markValue marks only object-carrying values). -/
def markOpt (st : GCSt) (r : Option Nat) : GCSt :=
  match r with
  | some id => markObject st id
  | none => st

/-- The sequence of references blackenObject marks for one object, in
source order.  Classes contribute name, superclass and the methods table —
not the privates table; natives and strings contribute nothing. -/
def blackenRefs (o : GObj) : List (Option Nat) :=
  match o with
  | .str => []
  | .native _ => []
  | .upvalue closed => [closed]
  | .function name constants => [name] ++ constants
  | .closure fn upvalues => [some fn] ++ upvalues
  | .cls name superclass methods _ =>
    [some name, superclass] ++ methods.flatMap (fun p => [some p.1, p.2])
  | .inst klass fields =>
    [some klass] ++ fields.flatMap (fun p => [some p.1, p.2])
  | .bound receiver method => [receiver, some method]
  | .table entries array =>
    entries.flatMap (fun p => [some p.1, p.2]) ++ array
  | .trait name methods =>
    [some name] ++ methods.flatMap (fun p => [some p.1, p.2])

/-- blackenObject from object.c: mark every reference the object holds. -/
def blackenObject (heap : List (Nat × GObj)) (st : GCSt) (id : Nat) : GCSt :=
  match heap.lookup id with
  | some o => (blackenRefs o).foldl markOpt st
  | none => st

/-- traceReferences from memory.c (gray worklist drained with fuel). -/
def traceReferences (heap : List (Nat × GObj)) : Nat → GCSt → GCSt
  | 0, st => st
  | fuel + 1, st =>
    match st.gray with
    | [] => st
    | id :: rest => traceReferences heap fuel (blackenObject heap { st with gray := rest } id)

/-- The GC root set of markRoots in memory.c: stack values, frame closures,
open upvalues, the globals table (keys and values), compiler roots, and the
cached init string.  The intern table vm.strings is not part of it. -/
structure Roots where
  stack : List (Option Nat)
  frameClosures : List Nat
  openUpvalues : List Nat
  globals : List (Nat × Option Nat)
  compilerFns : List Nat
  initString : Option Nat
deriving DecidableEq, Repr

/-- markTable, modelled from the spec and the table.h declaration in src/:
mark all keys and values. -/
def markTable (st : GCSt) (t : List (Nat × Option Nat)) : GCSt :=
  t.foldl (fun acc p => markOpt (markObject acc p.1) p.2) st

/-- markRoots from memory.c, in source order. -/
def markRoots (r : Roots) : GCSt :=
  let st0 : GCSt := { marked := [], gray := [] }
  let st1 := r.stack.foldl markOpt st0
  let st2 := r.frameClosures.foldl markObject st1
  let st3 := r.openUpvalues.foldl markObject st2
  let st4 := markTable st3 r.globals
  let st5 := r.compilerFns.foldl markObject st4
  markOpt st5 r.initString

/-- sweep from memory.c: unmarked objects are unlinked and freed; marked
ones stay (their bits are cleared, which the model drops with the mark
state). -/
def sweep (heap : List (Nat × GObj)) (marked : List Nat) :
    List (Nat × GObj) :=
  heap.filter (fun p => p.1 ∈ marked)

/-- The GC-relevant part of the VM state: the all-objects list, the roots,
and the string intern table (a set of string-object keys). -/
structure GCVM where
  heap : List (Nat × GObj)
  roots : Roots
  strings : List Nat
deriving DecidableEq, Repr

/-- Every reference appearing in the heap or the roots (used to size the
trace fuel). -/
def relevantIds (vm : GCVM) : List Nat :=
  (vm.roots.stack.reduceOption ++ vm.roots.frameClosures ++
    vm.roots.openUpvalues ++ vm.roots.globals.map (fun p => p.1) ++
    (vm.roots.globals.map (fun p => p.2)).reduceOption ++
    vm.roots.compilerFns ++
    vm.roots.initString.toList ++ vm.heap.map (fun p => p.1) ++
    vm.heap.flatMap (fun p => (blackenRefs p.2).reduceOption)).dedup

/-- collectGarbage from memory.c: markRoots, traceReferences, sweep.  The
intern table is neither treated as a root nor purged of freed keys
(tableRemoveWhite is declared in table.h but never called). -/
def collectGarbage (vm : GCVM) : GCVM :=
  let st0 := markRoots vm.roots
  let fuel := 2 * (relevantIds vm).length + st0.gray.length
  let st1 := traceReferences vm.heap fuel st0
  { vm with heap := sweep vm.heap st1.marked }

/-- The marked set produced by a collection (for stating invariants). -/
def collectMarked (vm : GCVM) : List Nat :=
  let st0 := markRoots vm.roots
  let fuel := 2 * (relevantIds vm).length + st0.gray.length
  (traceReferences vm.heap fuel st0).marked

/-- Every reference a live object holds, privates-table keys and native
names included (the claim quantifies over all pointer fields, not only the
ones blackenObject traces). -/
def allFieldRefs (o : GObj) : List Nat :=
  match o with
  | .native name => [name]
  | .cls _ _ _ privates =>
    (blackenRefs o).reduceOption ++ privates.map (fun p => p.1) ++
      (privates.map (fun p => p.2)).reduceOption
  | _ => (blackenRefs o).reduceOption

end GCM

end Luapp

namespace Luapp

theorem emitByte_code (cs : CState) (b : Nat) :
    (emitByte cs b).chunk.code = cs.chunk.code ++ [b] := rfl

theorem foldl_emitByte_code (l : List Nat) (cs : CState) :
    (l.foldl emitByte cs).chunk.code = cs.chunk.code ++ l := by
  induction l generalizing cs with
  | nil => simp
  | cons x xs ih =>
    simp only [List.foldl_cons, ih, emitByte_code]
    simp

/-- C9: for every receiver, method name and argument list, the call forms
obj.name(args) and obj:name(args) compile to identical bytecode — a single
INVOKE with the same method-name constant and argument count — and the
receiver bytecode appears exactly once, before the arguments. -/
theorem dot_and_colon_call_compile_identically (canAssign : Bool)
    (recvCode : List Nat) (nameConst : Nat) (argsCode : List Nat)
    (argCount : Nat) (cs : CState) :
    dotCallCompiled canAssign recvCode nameConst argsCode argCount cs =
      colonCallCompiled recvCode nameConst argsCode argCount cs ∧
    (dotCallCompiled canAssign recvCode nameConst argsCode argCount cs).chunk.code =
      cs.chunk.code ++ recvCode ++ argsCode ++
        [Op.toByte .opINVOKE, nameConst, argCount] := by
  constructor
  · rfl
  · simp only [dotCallCompiled, dotEmit, emitBytes, emitByte_code,
      foldl_emitByte_code]
    simp

/-- C9 witness: concrete instantiation of the compilation equality. -/
theorem dot_and_colon_call_compile_identically_witness :
    dotCallCompiled true [6, 1] 3 [0, 0] 1 ⟨⟨[], []⟩, false⟩ =
      colonCallCompiled [6, 1] 3 [0, 0] 1 ⟨⟨[], []⟩, false⟩ :=
  (dot_and_colon_call_compile_identically true [6, 1] 3 [0, 0] 1
    ⟨⟨[], []⟩, false⟩).1

theorem lexQuoted_le (quote : Char) : ∀ (cs : List Char) (n : Nat),
    lexQuoted quote cs = some n → n ≤ cs.length
  | [], n, h => by simp [lexQuoted] at h
  | [c], n, h => by
    simp only [lexQuoted] at h
    split at h
    · simp only [Option.some.injEq] at h
      simp [← h]
    · split at h
      · simp [lexQuoted] at h
      · split at h
        · simp [lexQuoted] at h
        · simp [lexQuoted] at h
  | c :: c2 :: rest2, n, h => by
    simp only [lexQuoted] at h
    split at h
    · simp only [Option.some.injEq] at h
      simp [← h]
    · split at h
      · rcases Option.map_eq_some'.1 h with ⟨m, hm, rfl⟩
        have := lexQuoted_le quote (c2 :: rest2) m hm
        simp only [List.length_cons] at this ⊢
        omega
      · split at h
        · rcases Option.map_eq_some'.1 h with ⟨m, hm, rfl⟩
          have := lexQuoted_le quote rest2 m hm
          simp only [List.length_cons]
          omega
        · rcases Option.map_eq_some'.1 h with ⟨m, hm, rfl⟩
          have := lexQuoted_le quote (c2 :: rest2) m hm
          simp only [List.length_cons] at this ⊢
          omega
termination_by cs => cs.length

theorem lexLong_le : ∀ (cs : List Char) (n : Nat),
    lexLong cs = some n → n ≤ cs.length
  | [], n, h => by simp [lexLong] at h
  | c :: rest, n, h => by
    simp only [lexLong] at h
    split at h
    · simp only [Option.some.injEq] at h
      rename_i hc
      cases rest with
      | nil => simp at hc
      | cons c2 rest2 => simp [← h]
    · rcases Option.map_eq_some'.1 h with ⟨m, hm, rfl⟩
      have := lexLong_le rest m hm
      simp only [List.length_cons]
      omega
termination_by cs => cs.length

/-- C10: the compiled string constant is the token's raw source bytes with
exactly one leading and one trailing character removed — escapes are kept
verbatim (backslash n stays as the two characters backslash, n), and the
long form keeps one bracket on each side, so a double-bracket abc literal
compiles to the five characters bracket-a-b-c-bracket, not to abc.
Moreover every scanned string token is a verbatim prefix of the source. -/
theorem string_constant_strips_one_delimiter_each_side :
    (scanStringToken ('\"' :: 'a' :: '\\' :: 'n' :: 'b' :: '\"' :: []) =
      some ('\"' :: 'a' :: '\\' :: 'n' :: 'b' :: '\"' :: [])) ∧
    (stringConstantOfToken ('\"' :: 'a' :: '\\' :: 'n' :: 'b' :: '\"' :: []) =
      'a' :: '\\' :: 'n' :: 'b' :: []) ∧
    (scanStringToken ('[' :: '[' :: 'a' :: 'b' :: 'c' :: ']' :: ']' :: []) =
      some ('[' :: '[' :: 'a' :: 'b' :: 'c' :: ']' :: ']' :: [])) ∧
    (stringConstantOfToken ('[' :: '[' :: 'a' :: 'b' :: 'c' :: ']' :: ']' :: []) =
      '[' :: 'a' :: 'b' :: 'c' :: ']' :: []) ∧
    ('[' :: 'a' :: 'b' :: 'c' :: ']' :: [] ≠ 'a' :: 'b' :: 'c' :: ([] : List Char)) ∧
    (∀ src tok, scanStringToken src = some tok →
      tok <+: src ∧
      stringConstantOfToken tok = (tok.drop 1).take (tok.length - 2) ∧
      ∀ cs, (stringEmit tok cs).chunk.constants =
        cs.chunk.constants ++ [.str ((tok.drop 1).take (tok.length - 2))]) := by
  refine ⟨by decide, by decide, by decide, by decide, by decide, ?_⟩
  intro src tok h
  have hpre : tok <+: src := by
    cases src with
    | nil => simp [scanStringToken] at h
    | cons c rest =>
      by_cases hq : c = '\"' ∨ c = '\''
      · simp only [scanStringToken, if_pos hq, Option.map_eq_some'] at h
        obtain ⟨n, _, rfl⟩ := h
        exact List.take_prefix _ _
      · by_cases hb : c = '['
        · cases rest with
          | nil => simp [scanStringToken, hq, hb] at h
          | cons c2 rest2 =>
            by_cases hb2 : c2 = '['
            · simp only [scanStringToken, if_neg hq, if_pos hb, if_pos hb2,
                Option.map_eq_some'] at h
              obtain ⟨n, _, rfl⟩ := h
              exact List.take_prefix _ _
            · simp [scanStringToken, hq, hb, hb2] at h
        · simp [scanStringToken, hq, hb] at h
  refine ⟨hpre, rfl, ?_⟩
  intro cs
  simp [stringEmit, emitConstant, makeConstant, addConstant,
    stringConstantOfToken, emitBytes, emitByte, writeChunk]
  split <;> rfl

/-- C10 witness: the general clause applied to the long-form literal. -/
theorem string_constant_strips_one_delimiter_each_side_witness :
    (scanStringToken ('[' :: '[' :: 'a' :: 'b' :: 'c' :: ']' :: ']' :: []) =
      some ('[' :: '[' :: 'a' :: 'b' :: 'c' :: ']' :: ']' :: [])) ∧
    ('[' :: '[' :: 'a' :: 'b' :: 'c' :: ']' :: ']' :: [] <+:
      '[' :: '[' :: 'a' :: 'b' :: 'c' :: ']' :: ']' :: []) :=
  ⟨by decide,
    (string_constant_strips_one_delimiter_each_side.2.2.2.2.2 _ _
      (by decide)).1⟩

end Luapp

namespace Luapp

/-- A chunk whose bytes 0..4 are GET_GLOBAL f; CALL 0 — an initializer
performing a global read and a function call. -/
def c8Chunk : Chunk :=
  ⟨[Op.toByte .opGET_GLOBAL, 0, Op.toByte .opCALL, 0], [.str ['f']]⟩

/-- An unused, non-captured local named x whose initializer spans bytes
0..4 of c8Chunk. -/
def c8Local : LocalInfo :=
  { nameLen := 1, nameHead := 'x', isCaptured := false, isUsed := false,
    initBytecodeStart := 0, initBytecodeEnd := 4 }

/-- C8 counterexample: the initializer contains opcodes outside the
side-effect-free whitelist (GET_GLOBAL, CALL), yet endScope still emits the
unused-variable warning for the local — the claim says no warning would be
emitted. -/
theorem unused_warning_fires_despite_side_effects :
    isSideEffectFree c8Chunk 0 4 = false ∧
    (endScopeLocal ⟨true, true⟩ c8Chunk c8Local).warned = true ∧
    (endScopeLocal ⟨true, true⟩ c8Chunk c8Local).dceConsidered = false := by
  refine ⟨by decide, by decide, by decide⟩

/-- C8 amended: the unused-variable warning is emitted for every unused,
non-underscore, named local whatever its initializer's bytecode holds; the
side-effect-free whitelist gates only the dead-store elimination branch,
whose body is empty, so the emitted scope-exit bytecode is one POP (or
CLOSE_UPVALUE for captured locals) in every case. -/
theorem unused_warning_independent_of_whitelist (opts : CompilerOptions)
    (c c' : Chunk) (l : LocalInfo) :
    (endScopeLocal opts c l).warned =
      (!l.isUsed && decide (0 < l.nameLen) && decide (l.nameHead ≠ '_') &&
        opts.warnUnusedVariables) ∧
    (endScopeLocal opts c l).warned = (endScopeLocal opts c' l).warned ∧
    (endScopeLocal opts c l).emitted =
      [if l.isCaptured then Op.toByte .opCLOSE_UPVALUE
       else Op.toByte .opPOP] := by
  exact ⟨rfl, rfl, rfl⟩

end Luapp

namespace Luapp

theorem compileLoopBody_unassigned_target (loop : CLoop)
    (h : loop.continueTarget = none) (pre post : List BodyStmt)
    (cs : CState) :
    compileLoopBody loop (pre ++ .contStmt :: post) cs = none := by
  cases pre with
  | nil => simp [compileLoopBody, continueStatement, h]
  | cons hd tl =>
    cases hd
    simp [compileLoopBody, continueStatement, h]

/-- C2: in a numeric for loop the compiler assigns the loop record's
continue target only after the body has been compiled, so every continue
inside the body reads the still-unassigned field (C indeterminate value):
compilation of any for body containing a continue has no defined result.
In while and repeat loops the target is assigned to the loop top before the
body, and the LOOP instruction a continue emits decodes back exactly to the
loop top. -/
theorem for_continue_reads_unassigned_target :
    (∀ (localBase : Nat) (startCode limitCode stepCode : List Nat)
       (pre post : List BodyStmt) (cs : CState),
       forStatement localBase startCode limitCode stepCode
         (pre ++ .contStmt :: post) cs = none) ∧
    forStatement 4 [] [] [] [.contStmt] ⟨⟨[], []⟩, false⟩ = none ∧
    (∃ ws, whileStatement [Op.toByte .opTRUE] [.contStmt] ⟨⟨[], []⟩, false⟩ =
        some ws ∧
      loopTargetAt ws.chunk.code 5 = some 0) ∧
    (∃ rs, repeatStatement [Op.toByte .opTRUE] [.contStmt] ⟨⟨[], []⟩, false⟩ =
        some rs ∧
      loopTargetAt rs.chunk.code 0 = some 0) := by
  refine ⟨?_, by decide, ⟨_, rfl, by decide⟩, ⟨_, rfl, by decide⟩⟩
  intro localBase startCode limitCode stepCode pre post cs
  simp [forStatement, compileLoopBody_unassigned_target]

/-- C2 witness: the universal clause at a concrete for loop with one
leading statement before the continue. -/
theorem for_continue_reads_unassigned_target_witness :
    forStatement 4 [0, 0] [0, 1] [0, 2] ([.contStmt] ++ .contStmt :: [])
      ⟨⟨[], []⟩, false⟩ = none :=
  for_continue_reads_unassigned_target.1 4 [0, 0] [0, 1] [0, 2]
    [.contStmt] [] ⟨⟨[], []⟩, false⟩

end Luapp

namespace Luapp

/-- A GC state with two interned strings: id 1 is the cached init string
(reachable root), id 0 is interned but unreachable from every root. -/
def c4VM : GCM.GCVM :=
  { heap := [(0, .str), (1, .str)],
    roots := { stack := [], frameClosures := [], openUpvalues := [],
               globals := [], compilerFns := [], initString := some 1 },
    strings := [0, 1] }

/-- C4: after a collection the unreachable interned string is freed (second
half of the claim holds: vm.strings is not a root), but its entry is still
in the intern table — the table now holds a key whose object is no longer
on the all-objects list, violating the claimed consistency.  collectGarbage
never calls tableRemoveWhite, although table.h declares it precisely for
this purpose. -/
theorem intern_table_keeps_entry_for_freed_string :
    (GCM.collectGarbage c4VM).strings = [0, 1] ∧
    (GCM.collectGarbage c4VM).heap.lookup 0 = none ∧
    (GCM.collectGarbage c4VM).heap.lookup 1 = some .str ∧
    (0 ∈ (GCM.collectGarbage c4VM).strings ∧
      ¬ 0 ∈ (GCM.collectGarbage c4VM).heap.map (fun p => p.1)) := by
  refine ⟨by decide, by decide, by decide, by decide, by decide⟩

end Luapp

namespace Luapp

/-- Chunk holding a single TABLE_GET instruction. -/
def tgChunk : Chunk := ⟨[Op.toByte .opTABLE_GET], []⟩

/-- Chunk holding a single TABLE_SET instruction. -/
def tsChunk : Chunk := ⟨[Op.toByte .opTABLE_SET], []⟩

/-- VM state about to execute the given one-instruction chunk, with table
object 2 at the bottom of the operand stack and the remaining operands
above it. -/
def tableOpState (ch : Chunk) (entries : STable) (arr : List Value)
    (extra : List Value) : VMState :=
  { heap := [(0, .function 0 0 ch none), (1, .closure 0 []),
             (2, .table entries arr)],
    nextId := 3, stack := .obj 2 :: extra, frames := [⟨1, 0, 0⟩],
    globals := [], openUpvalues := [] }


/-- Array part written by a TABLE_SET with a number key: nil padding up to
the truncated index, then the value stored at index-1. -/
def tsNumArray (arr : List Value) (n : ℚ) (value : Value) : List Value :=
  (arr ++ List.replicate ((cint n).toNat - arr.length) Value.nil).set
    (cint n - 1).toNat value

/-- Result state of a TABLE_SET that stores value at truncated number key
n into the array part. -/
def tsNumResult (entries : STable) (arr : List Value) (n : ℚ)
    (value : Value) : VMState :=
  { heap := [(0, .function 0 0 tsChunk none), (1, .closure 0 []),
             (2, .table entries (tsNumArray arr n value))],
    nextId := 3, stack := [value], frames := [⟨1, 1, 0⟩],
    globals := [], openUpvalues := [] }

/-- State after TABLE_SET raises the illegal-key runtime error: the three
operands were already popped and runtimeError resets stack, frames and
open upvalues. -/
def tsErrResult (entries : STable) (arr : List Value) : VMState :=
  { heap := [(0, .function 0 0 tsChunk none), (1, .closure 0 []),
             (2, .table entries arr)],
    nextId := 3, stack := [], frames := [], globals := [],
    openUpvalues := [] }

/-- Result state of a TABLE_SET that stores value under string key k in
the hash part. -/
def tsStrResult (entries : STable) (arr : List Value) (k : List Char)
    (value : Value) : VMState :=
  { heap := [(0, .function 0 0 tsChunk none), (1, .closure 0 []),
             (2, .table (tableSet entries k value).2 arr)],
    nextId := 3, stack := [value], frames := [⟨1, 1, 0⟩],
    globals := [], openUpvalues := [] }

theorem runStep_table_get (ns : Nat → List Value → Value) (entries : STable)
    (arr : List Value) (key : Value) :
    runStep ns (tableOpState tgChunk entries arr [key]) =
      (match key with
       | .num n =>
         if 1 ≤ cint n ∧ cint n ≤ (arr.length : Int) then
           StepOut.ok { tableOpState tgChunk entries arr [key] with
             stack := [arr.getD (cint n - 1).toNat Value.nil],
             frames := [⟨1, 1, 0⟩] }
         else StepOut.ok { tableOpState tgChunk entries arr [key] with
           stack := [Value.nil], frames := [⟨1, 1, 0⟩] }
       | .str k =>
         (match tableGet entries k with
          | some v => StepOut.ok { tableOpState tgChunk entries arr [key] with
              stack := [v], frames := [⟨1, 1, 0⟩] }
          | none => StepOut.ok { tableOpState tgChunk entries arr [key] with
              stack := [Value.nil], frames := [⟨1, 1, 0⟩] })
       | _ => StepOut.ok { tableOpState tgChunk entries arr [key] with
           stack := [Value.nil], frames := [⟨1, 1, 0⟩] }) := by
  cases key <;> rfl

theorem runStep_table_set (ns : Nat → List Value → Value) (entries : STable)
    (arr : List Value) (key value : Value) :
    runStep ns (tableOpState tsChunk entries arr [key, value]) =
      (match key with
       | .num n =>
         if 1 ≤ cint n then StepOut.ok (tsNumResult entries arr n value)
         else StepOut.interpErr (tsErrResult entries arr)
       | .str k => StepOut.ok (tsStrResult entries arr k value)
       | _ => StepOut.interpErr (tsErrResult entries arr)) := by
  cases key <;> rfl

theorem lookup_map_update (k : List Char) (v : Value) :
    ∀ (t : STable) (w : Value), List.lookup k t = some w →
      List.lookup k (t.map (fun p => if p.1 = k then (k, v) else p)) = some v
  | [], w, h => by simp [List.lookup] at h
  | e :: es, w, h => by
    by_cases he : e.1 = k
    · simp only [List.map_cons, if_pos he]
      simp [List.lookup]
    · have hne : (k == e.1) = false := by
        simp only [beq_eq_false_iff_ne, ne_eq]
        exact fun hx => he hx.symm
      simp only [List.lookup, hne] at h
      simp only [List.map_cons, if_neg he]
      cases e with
      | mk k1 v1 =>
        simp only [List.lookup, hne]
        exact lookup_map_update k v es w h

theorem lookup_append_new (k : List Char) (v : Value) :
    ∀ (t : STable), List.lookup k t = none →
      List.lookup k (t ++ [(k, v)]) = some v
  | [], _ => by simp [List.lookup]
  | e :: es, h => by
    by_cases he : k = e.1
    · simp [List.lookup, he] at h
    · have hne : (k == e.1) = false := by simp [he]
      simp only [List.lookup, hne] at h
      simp only [List.cons_append, List.lookup, hne]
      exact lookup_append_new k v es h

theorem tableGet_tableSet_self (t : STable) (k : List Char) (v : Value) :
    tableGet (tableSet t k v).2 k = some v := by
  unfold tableSet
  cases h : tableGet t k with
  | some w =>
    simp only [h]
    exact lookup_map_update k v t w h
  | none =>
    simp only [h]
    exact lookup_append_new k v t h

/-- C6 amended: TABLE_GET pops key then table; number keys are truncated
toward zero by the C int cast, array hits need the truncation in 1..count,
string keys read the hash part, and every miss (including non-integer and
non-string keys) pushes nil.  TABLE_SET pops value, key, table; any number
key truncating to at least 1 stores into the array with nil padding up to
the index, string keys update the hash part, and only number keys
truncating below 1 and non-number non-string keys raise the runtime error
(which resets the stack). -/
theorem table_get_set_truncating_characterization
    (ns : Nat → List Value → Value) (entries : STable) (arr : List Value) :
    (∀ n : ℚ, 1 ≤ cint n ∧ cint n ≤ (arr.length : Int) →
      ∃ v, arr.get? ((cint n).toNat - 1) = some v ∧
        runStep ns (tableOpState tgChunk entries arr [.num n]) =
          .ok { tableOpState tgChunk entries arr [.num n] with
                  stack := [v], frames := [⟨1, 1, 0⟩] }) ∧
    (∀ n : ℚ, ¬ (1 ≤ cint n ∧ cint n ≤ (arr.length : Int)) →
      runStep ns (tableOpState tgChunk entries arr [.num n]) =
        .ok { tableOpState tgChunk entries arr [.num n] with
                stack := [Value.nil], frames := [⟨1, 1, 0⟩] }) ∧
    (∀ k v0, tableGet entries k = some v0 →
      runStep ns (tableOpState tgChunk entries arr [.str k]) =
        .ok { tableOpState tgChunk entries arr [.str k] with
                stack := [v0], frames := [⟨1, 1, 0⟩] }) ∧
    (∀ k, tableGet entries k = none →
      runStep ns (tableOpState tgChunk entries arr [.str k]) =
        .ok { tableOpState tgChunk entries arr [.str k] with
                stack := [Value.nil], frames := [⟨1, 1, 0⟩] }) ∧
    (∀ b, runStep ns (tableOpState tgChunk entries arr [.bool b]) =
        .ok { tableOpState tgChunk entries arr [.bool b] with
                stack := [Value.nil], frames := [⟨1, 1, 0⟩] }) ∧
    (runStep ns (tableOpState tgChunk entries arr [.nil]) =
        .ok { tableOpState tgChunk entries arr [.nil] with
                stack := [Value.nil], frames := [⟨1, 1, 0⟩] }) ∧
    (∀ (n : ℚ) (value : Value), 1 ≤ cint n →
      runStep ns (tableOpState tsChunk entries arr [.num n, value]) =
        .ok (tsNumResult entries arr n value) ∧
      (tsNumArray arr n value).length = max arr.length (cint n).toNat ∧
      (tsNumArray arr n value).get? ((cint n).toNat - 1) = some value ∧
      (∀ j, j < arr.length → j ≠ (cint n).toNat - 1 →
        (tsNumArray arr n value).get? j = arr.get? j) ∧
      (∀ j, arr.length ≤ j → j < (cint n).toNat - 1 →
        (tsNumArray arr n value).get? j = some Value.nil)) ∧
    (∀ (n : ℚ) (value : Value), cint n < 1 →
      runStep ns (tableOpState tsChunk entries arr [.num n, value]) =
        .interpErr (tsErrResult entries arr)) ∧
    (∀ k value,
      runStep ns (tableOpState tsChunk entries arr [.str k, value]) =
        .ok (tsStrResult entries arr k value) ∧
      tableGet (tableSet entries k value).2 k = some value) ∧
    (∀ value b,
      runStep ns (tableOpState tsChunk entries arr [.bool b, value]) =
        .interpErr (tsErrResult entries arr)) := by
  refine ⟨?_, ?_, ?_, ?_, ?_, ?_, ?_, ?_, ?_, ?_⟩
  · intro n hn
    have hlt : (cint n).toNat - 1 < arr.length := by omega
    have hidx : (cint n - 1).toNat = (cint n).toNat - 1 := by omega
    refine ⟨arr.getD ((cint n).toNat - 1) Value.nil, ?_, ?_⟩
    · rw [List.get?_eq_get hlt]
      rw [List.getD_eq_getElem _ _ hlt]
      rfl
    · simp only [runStep_table_get]
      rw [if_pos hn, hidx]
  · intro n hn
    simp only [runStep_table_get]
    rw [if_neg hn]
  · intro k v0 hk
    simp only [runStep_table_get, hk]
  · intro k hk
    simp only [runStep_table_get, hk]
  · intro b
    simp only [runStep_table_get]
  · simp only [runStep_table_get]
  · intro n value hn
    have hidx : (cint n - 1).toNat = (cint n).toNat - 1 := by omega
    have hplen :
        (arr ++ List.replicate ((cint n).toNat - arr.length)
          Value.nil).length = max arr.length (cint n).toNat := by
      simp only [List.length_append, List.length_replicate]
      omega
    have hidxlt : (cint n).toNat - 1 <
        (arr ++ List.replicate ((cint n).toNat - arr.length)
          Value.nil).length := by
      rw [hplen]
      omega
    refine ⟨?_, ?_, ?_, ?_, ?_⟩
    · simp only [runStep_table_set]
      rw [if_pos hn]
    · simp only [tsNumArray, List.length_set, hplen]
    · simp only [tsNumArray, hidx]
      exact List.get?_set_eq_of_lt value hidxlt
    · intro j hj hne
      simp only [tsNumArray, hidx]
      rw [List.get?_set_ne value _ (fun hx => hne hx.symm)]
      exact List.get?_append hj
    · intro j hj1 hj2
      simp only [tsNumArray, hidx]
      rw [List.get?_set_ne value _ (by omega)]
      rw [List.get?_append_right (by omega)]
      rw [List.get?_eq_getElem?]
      rw [List.getElem?_replicate_of_lt (by omega)]
  · intro n value hn
    simp only [runStep_table_set]
    rw [if_neg (by omega)]
  · intro k value
    exact ⟨by simp only [runStep_table_set], tableGet_tableSet_self entries k value⟩
  · intro value b
    simp only [runStep_table_set]

/-- The rational 5/2 as an explicit fraction. -/
def twoPointFive : ℚ := ⟨5, 2, by decide, by decide⟩

/-- C6 counterexample: TABLE_SET with the non-integer key 2.5 does not
raise a runtime error as the claim requires; the key is truncated to 2 and
the value is stored at array index 2 with one nil of padding. -/
theorem table_set_fractional_key_no_error :
    runStep (fun _ _ => Value.nil)
        (tableOpState tsChunk [] [] [.num twoPointFive, .num 42]) =
      .ok (tsNumResult [] [] twoPointFive (.num 42)) ∧
    tsNumArray [] twoPointFive (.num 42) = [Value.nil, .num 42] ∧
    (∀ s, runStep (fun _ _ => Value.nil)
        (tableOpState tsChunk [] [] [.num twoPointFive, .num 42]) ≠
      StepOut.interpErr s) := by
  refine ⟨by decide, by decide, ?_⟩
  intro s h
  rw [show runStep (fun _ _ => Value.nil)
      (tableOpState tsChunk [] [] [.num twoPointFive, .num 42]) =
      .ok (tsNumResult [] [] twoPointFive (.num 42)) by decide] at h
  exact StepOut.noConfusion h

/-- C6 witness: the in-range integer-key clause applied to a one-element
array with key 1. -/
theorem table_get_set_truncating_characterization_witness :
    (1 ≤ cint 1 ∧ cint 1 ≤ (([Value.num 7].length : Nat) : Int)) ∧
    (∃ v, [Value.num 7].get? ((cint 1).toNat - 1) = some v ∧
      runStep (fun _ _ => Value.nil)
          (tableOpState tgChunk [] [Value.num 7] [.num 1]) =
        .ok { tableOpState tgChunk [] [Value.num 7] [.num 1] with
                stack := [v], frames := [⟨1, 1, 0⟩] }) :=
  ⟨by decide,
    (table_get_set_truncating_characterization (fun _ _ => Value.nil) []
      [Value.num 7]).1 1 (by decide)⟩

/-- Stack slot an open upvalue points at (none when closed or absent). -/
def openSlot (s : VMState) (u : ObjId) : Option Nat :=
  match heapGet s u with
  | some (.upvalue (.openAt k)) => some k
  | _ => none

/-- Descending-slot ordering between two open-upvalue nodes. -/
def SlotAbove (s : VMState) (u v : ObjId) : Prop :=
  ∀ ku kv, openSlot s u = some ku → openSlot s v = some kv → kv < ku

/-- The open-upvalue list invariant: every node is an open upvalue and the
list is sorted by strictly descending stack slot. -/
def OpenSorted (s : VMState) : Prop :=
  (∀ u ∈ s.openUpvalues, (openSlot s u).isSome) ∧
  s.openUpvalues.Pairwise (SlotAbove s)

/-- Heap identities stay below the allocation counter. -/
def HeapBound (s : VMState) : Prop :=
  ∀ p ∈ s.heap, p.1 < s.nextId

theorem lookup_mem {α β : Type} [BEq α] [LawfulBEq α] {k : α} {v : β} :
    ∀ {l : List (α × β)}, l.lookup k = some v → (k, v) ∈ l
  | [], h => by simp at h
  | e :: es, h => by
    rw [List.lookup_cons] at h
    split at h
    · rename_i heq
      cases h
      have hk : k = e.1 := eq_of_beq heq
      cases e
      subst hk
      exact List.mem_cons_self _ _
    · exact List.mem_cons_of_mem _ (lookup_mem h)

theorem heapGet_mem {s : VMState} {u : ObjId} {o : HObj}
    (h : heapGet s u = some o) : (u, o) ∈ s.heap :=
  lookup_mem h

theorem heapGet_lt_nextId {s : VMState} {u : ObjId} {o : HObj}
    (hb : HeapBound s) (h : heapGet s u = some o) : u < s.nextId :=
  hb _ (heapGet_mem h)

theorem lookup_cons_ne {α β : Type} [BEq α] [LawfulBEq α] {k a : α} {v : β}
    {l : List (α × β)} (h : k ≠ a) :
    List.lookup k ((a, v) :: l) = List.lookup k l := by
  have hb : (k == a) = false := by simp [h]
  simp [List.lookup_cons, hb]

theorem heapGet_alloc_ne {s : VMState} {o : HObj} {u : ObjId}
    (h : u ≠ s.nextId) : heapGet (allocObj s o).2 u = heapGet s u :=
  lookup_cons_ne h

theorem lookup_map_set_ne {k w : ObjId} {o : HObj} (h : k ≠ w) :
    ∀ (l : List (ObjId × HObj)),
      (l.map (fun p => if p.1 = w then (w, o) else p)).lookup k = l.lookup k
  | [] => by simp
  | e :: es => by
    by_cases he : e.1 = w
    · rw [List.map_cons, if_pos he]
      rw [List.lookup_cons, List.lookup_cons]
      have h1 : (k == w) = false := by simp [h]
      have h2 : (k == e.1) = false := by
        rw [he]
        exact h1
      simp only [h1, h2]
      exact lookup_map_set_ne h es
    · rw [List.map_cons, if_neg he]
      rw [List.lookup_cons, List.lookup_cons]
      cases hkk : (k == e.1) with
      | true => rfl
      | false => exact lookup_map_set_ne h es

theorem lookup_map_set_eq {w : ObjId} {o o0 : HObj} :
    ∀ {l : List (ObjId × HObj)}, l.lookup w = some o0 →
      (l.map (fun p => if p.1 = w then (w, o) else p)).lookup w = some o
  | [], h => by simp at h
  | e :: es, h => by
    by_cases he : e.1 = w
    · rw [List.map_cons, if_pos he, List.lookup_cons]
      simp
    · have h1 : (w == e.1) = false := by
        simp only [beq_eq_false_iff_ne, ne_eq]
        exact fun hx => he hx.symm
      rw [List.lookup_cons] at h
      simp only [h1] at h
      rw [List.map_cons, if_neg he, List.lookup_cons]
      simp only [h1]
      exact lookup_map_set_eq h

theorem heapGet_heapSet_ne {s : VMState} {w : ObjId} {o : HObj} {u : ObjId}
    (h : u ≠ w) : heapGet (heapSet s w o) u = heapGet s u :=
  lookup_map_set_ne h s.heap

theorem heapGet_heapSet_eq {s : VMState} {w : ObjId} {o o0 : HObj}
    (h : heapGet s w = some o0) : heapGet (heapSet s w o) w = some o :=
  lookup_map_set_eq h

end Luapp

namespace Luapp

theorem openSlot_some {s : VMState} {v : ObjId} {kv : Nat}
    (h : openSlot s v = some kv) :
    heapGet s v = some (.upvalue (.openAt kv)) := by
  unfold openSlot at h
  split at h
  · rename_i heq
    cases h
    exact heq
  · simp at h

theorem openSlot_heap_congr {s t : VMState} (h : s.heap = t.heap)
    (u : ObjId) : openSlot s u = openSlot t u := by
  unfold openSlot heapGet
  rw [h]

theorem captureGo_found (s : VMState) (k : Nat) (fresh : ObjId) :
    ∀ (l : List ObjId), (∀ u ∈ l, (openSlot s u).isSome) →
      l.Pairwise (SlotAbove s) →
      ∀ u ∈ l, openSlot s u = some k →
      captureGo s k fresh l = some (true, u, l)
  | [], _, _, u, hu, _ => absurd hu (List.not_mem_nil u)
  | v :: rest, hopen, hsort, u, hu, hk => by
    obtain ⟨kv, hkv⟩ := Option.isSome_iff_exists.1
      (hopen v (List.mem_cons_self _ _))
    rcases List.mem_cons.1 hu with rfl | hur
    · rw [hk] at hkv
      injection hkv with hkk
      subst hkk
      simp [captureGo, openSlot_some hk]
    · have hlt : k < kv := (List.pairwise_cons.1 hsort).1 u hur kv k hkv hk
      have ih := captureGo_found s k fresh rest
        (fun w hw => hopen w (List.mem_cons_of_mem _ hw))
        (List.pairwise_cons.1 hsort).2 u hur hk
      simp only [captureGo, openSlot_some hkv]
      rw [if_pos hlt, ih]
      rfl

theorem captureGo_insert (s : VMState) (k : Nat) (fresh : ObjId) :
    ∀ (l : List ObjId), (∀ u ∈ l, (openSlot s u).isSome) →
      (∀ u ∈ l, openSlot s u ≠ some k) →
      ∃ l₁ l₂, l = l₁ ++ l₂ ∧
        captureGo s k fresh l = some (false, fresh, l₁ ++ fresh :: l₂) ∧
        (∀ u ∈ l₁, ∀ ku, openSlot s u = some ku → k < ku) ∧
        (∀ v, l₂.head? = some v → ∀ kv, openSlot s v = some kv → kv < k)
  | [], _, _ => ⟨[], [], rfl, rfl, by simp, by simp⟩
  | v :: rest, hopen, hne => by
    obtain ⟨kv, hkv⟩ := Option.isSome_iff_exists.1
      (hopen v (List.mem_cons_self _ _))
    rcases lt_trichotomy k kv with hlt | heq | hgt
    · obtain ⟨l₁, l₂, hsplit, hgo, h1, h2⟩ :=
        captureGo_insert s k fresh rest
          (fun w hw => hopen w (List.mem_cons_of_mem _ hw))
          (fun w hw => hne w (List.mem_cons_of_mem _ hw))
      refine ⟨v :: l₁, l₂, by simp [hsplit], ?_, ?_, h2⟩
      · simp only [captureGo, openSlot_some hkv]
        rw [if_pos hlt, hgo]
        rfl
      · intro u hu ku hku
        rcases List.mem_cons.1 hu with rfl | hul
        · rw [hkv] at hku
          cases hku
          exact hlt
        · exact h1 u hul ku hku
    · exact absurd hkv (heq ▸ hne v (List.mem_cons_self _ _))
    · refine ⟨[], v :: rest, rfl, ?_, by simp, ?_⟩
      · simp only [captureGo, openSlot_some hkv]
        rw [if_neg (by omega : ¬ k < kv), if_neg (by omega : ¬ kv = k)]
        rfl
      · intro w hw kw hkw
        simp only [List.head?_cons, Option.some.injEq] at hw
        subst hw
        rw [hkv] at hkw
        cases hkw
        exact hgt

theorem pairwise_all_below {s : VMState} {l₂ : List ObjId} {k : Nat}
    (hopen : ∀ u ∈ l₂, (openSlot s u).isSome)
    (hsort : l₂.Pairwise (SlotAbove s))
    (hhead : ∀ v, l₂.head? = some v → ∀ kv, openSlot s v = some kv → kv < k) :
    ∀ u ∈ l₂, ∀ ku, openSlot s u = some ku → ku < k := by
  cases l₂ with
  | nil => intro u hu; exact absurd hu (List.not_mem_nil u)
  | cons v rest =>
    intro u hu ku hku
    obtain ⟨kv, hkv⟩ := Option.isSome_iff_exists.1
      (hopen v (List.mem_cons_self _ _))
    have hvk : kv < k := hhead v rfl kv hkv
    rcases List.mem_cons.1 hu with rfl | hur
    · rw [hkv] at hku
      cases hku
      exact hvk
    · have := (List.pairwise_cons.1 hsort).1 u hur kv ku hkv hku
      omega

end Luapp

namespace Luapp

/-- The state after captureUpvalue allocates a fresh open upvalue for
`localSlot` and relinks the open-upvalue list as `L`. -/
def capState (s : VMState) (k : Nat) (L : List ObjId) : VMState :=
  { s with heap := (s.nextId, .upvalue (.openAt k)) :: s.heap,
           nextId := s.nextId + 1, openUpvalues := L }

theorem heapGet_capState_self {s : VMState} {k : Nat} {L : List ObjId} :
    heapGet (capState s k L) s.nextId = some (.upvalue (.openAt k)) := by
  simp [capState, heapGet, List.lookup]

theorem heapGet_capState_ne {s : VMState} {k : Nat} {L : List ObjId}
    {u : ObjId} (h : u ≠ s.nextId) :
    heapGet (capState s k L) u = heapGet s u :=
  lookup_cons_ne h

theorem openSlot_capState_self {s : VMState} {k : Nat} {L : List ObjId} :
    openSlot (capState s k L) s.nextId = some k := by
  unfold openSlot
  rw [heapGet_capState_self]

theorem openSlot_capState_ne {s : VMState} {k : Nat} {L : List ObjId}
    {u : ObjId} (h : u ≠ s.nextId) :
    openSlot (capState s k L) u = openSlot s u := by
  unfold openSlot
  rw [heapGet_capState_ne h]

theorem openSlot_isSome_lt {s : VMState} {u : ObjId} (hb : HeapBound s)
    (h : (openSlot s u).isSome) : u < s.nextId := by
  obtain ⟨k, hk⟩ := Option.isSome_iff_exists.1 h
  exact heapGet_lt_nextId hb (openSlot_some hk)

theorem heapBound_capState {s : VMState} {k : Nat} {L : List ObjId}
    (hb : HeapBound s) : HeapBound (capState s k L) := by
  intro p hp
  simp only [capState] at hp ⊢
  rcases List.mem_cons.1 hp with rfl | hmem
  · exact Nat.lt_succ_self _
  · exact Nat.lt_succ_of_lt (hb p hmem)

theorem captureUpvalue_of_mem {s : VMState} {k : Nat} {u : ObjId}
    (hs : OpenSorted s) (hu : u ∈ s.openUpvalues)
    (hk : openSlot s u = some k) :
    captureUpvalue s k = some (u, s) := by
  have hgo := captureGo_found s k s.nextId s.openUpvalues hs.1 hs.2 u hu hk
  simp [captureUpvalue, hgo]

end Luapp

namespace Luapp

theorem openSorted_capState {s : VMState} {k : Nat} {l₁ l₂ : List ObjId}
    (hs : OpenSorted s) (hb : HeapBound s)
    (hsplit : s.openUpvalues = l₁ ++ l₂)
    (h1 : ∀ u ∈ l₁, ∀ ku, openSlot s u = some ku → k < ku)
    (h2 : ∀ v, l₂.head? = some v → ∀ kv, openSlot s v = some kv → kv < k) :
    OpenSorted (capState s k (l₁ ++ s.nextId :: l₂)) := by
  obtain ⟨hopen, hsort⟩ := hs
  rw [hsplit] at hopen hsort
  have hlt : ∀ u ∈ l₁ ++ l₂, u < s.nextId := fun u hu =>
    openSlot_isSome_lt hb (hopen u hu)
  have htr : ∀ u ∈ l₁ ++ l₂,
      openSlot (capState s k (l₁ ++ s.nextId :: l₂)) u = openSlot s u :=
    fun u hu => openSlot_capState_ne (Nat.ne_of_lt (hlt u hu))
  rw [List.pairwise_append] at hsort
  obtain ⟨hp1, hp2, hcross⟩ := hsort
  have hbelow : ∀ u ∈ l₂, ∀ ku, openSlot s u = some ku → ku < k :=
    pairwise_all_below (fun u hu => hopen u (List.mem_append_right _ hu))
      hp2 h2
  constructor
  · intro u hu
    rcases List.mem_append.1 hu with hul | hur
    · rw [htr u (List.mem_append_left _ hul)]
      exact hopen u (List.mem_append_left _ hul)
    · rcases List.mem_cons.1 hur with rfl | hu2
      · rw [openSlot_capState_self]
        rfl
      · rw [htr u (List.mem_append_right _ hu2)]
        exact hopen u (List.mem_append_right _ hu2)
  · show List.Pairwise _ (l₁ ++ s.nextId :: l₂)
    rw [List.pairwise_append]
    refine ⟨?_, ?_, ?_⟩
    · refine List.Pairwise.imp_of_mem ?_ hp1
      intro a b ha hb' hab ku kv hku hkv
      rw [htr a (List.mem_append_left _ ha)] at hku
      rw [htr b (List.mem_append_left _ hb')] at hkv
      exact hab ku kv hku hkv
    · rw [List.pairwise_cons]
      constructor
      · intro b hb' ku kv hku hkv
        rw [openSlot_capState_self] at hku
        injection hku with hku
        subst hku
        rw [htr b (List.mem_append_right _ hb')] at hkv
        exact hbelow b hb' kv hkv
      · refine List.Pairwise.imp_of_mem ?_ hp2
        intro a b ha hb' hab ku kv hku hkv
        rw [htr a (List.mem_append_right _ ha)] at hku
        rw [htr b (List.mem_append_right _ hb')] at hkv
        exact hab ku kv hku hkv
    · intro a ha b hb'
      rcases List.mem_cons.1 hb' with rfl | hb2
      · intro ku kv hku hkv
        rw [openSlot_capState_self] at hkv
        injection hkv with hkv
        subst hkv
        rw [htr a (List.mem_append_left _ ha)] at hku
        exact h1 a ha ku hku
      · intro ku kv hku hkv
        rw [htr a (List.mem_append_left _ ha)] at hku
        rw [htr b (List.mem_append_right _ hb2)] at hkv
        exact hcross a ha b hb2 ku kv hku hkv

theorem captureUpvalue_not_mem {s : VMState} {k : Nat}
    (hs : OpenSorted s) (hb : HeapBound s)
    (hnone : ∀ u ∈ s.openUpvalues, openSlot s u ≠ some k) :
    ∃ l₁ l₂, s.openUpvalues = l₁ ++ l₂ ∧
      captureUpvalue s k =
        some (s.nextId, capState s k (l₁ ++ s.nextId :: l₂)) ∧
      OpenSorted (capState s k (l₁ ++ s.nextId :: l₂)) := by
  obtain ⟨l₁, l₂, hsplit, hgo, h1, h2⟩ :=
    captureGo_insert s k s.nextId s.openUpvalues
      (fun u hu => hs.1 u hu) (fun u hu => hnone u hu)
  refine ⟨l₁, l₂, hsplit, ?_, openSorted_capState hs hb hsplit h1 h2⟩
  simp [captureUpvalue, hgo, capState, allocObj]

end Luapp

namespace Luapp

theorem closeGo_not_mem (last : Nat) :
    ∀ (l : List ObjId) (s : VMState) {w : ObjId}, w ∉ l →
      heapGet (closeGo last l s) w = heapGet s w
  | [], _, _, _ => rfl
  | u :: rest, s, w, h => by
    have hwu : w ≠ u := fun he => h (he ▸ List.mem_cons_self _ _)
    have hwr : w ∉ rest := fun hm => h (List.mem_cons_of_mem _ hm)
    simp only [closeGo]
    split
    · split
      · rw [closeGo_not_mem last rest _ hwr]
        exact heapGet_heapSet_ne hwu
      · rfl
    · rfl

theorem closeGo_closes (last : Nat) :
    ∀ (l : List ObjId) (s : VMState) (u : ObjId) (k : Nat),
      (∀ v ∈ l, (openSlot s v).isSome) → l.Pairwise (SlotAbove s) →
      u ∈ l → openSlot s u = some k → last ≤ k →
      heapGet (closeGo last l s) u =
        some (.upvalue (.closed (s.stack.getD k Value.nil)))
  | [], _, u, _, _, _, hu, _, _ => absurd hu (List.not_mem_nil u)
  | v :: rest, s, u, k, hopen, hsort, hu, hk, hl => by
    obtain ⟨kv, hkv⟩ := Option.isSome_iff_exists.1
      (hopen v (List.mem_cons_self _ _))
    have hvg := openSlot_some hkv
    rcases List.mem_cons.1 hu with rfl | hur
    · rw [hk] at hkv
      injection hkv with h
      subst h
      have hnotin : u ∉ rest := by
        intro hm
        exact absurd ((List.pairwise_cons.1 hsort).1 u hm k k hk hk)
          (lt_irrefl k)
      simp only [closeGo, hvg]
      rw [if_pos hl, closeGo_not_mem last rest _ hnotin]
      exact heapGet_heapSet_eq hvg
    · have hkkv : k < kv := (List.pairwise_cons.1 hsort).1 u hur kv k hkv hk
      have hne : ∀ w ∈ rest, w ≠ v := by
        intro w hw he
        subst he
        exact absurd ((List.pairwise_cons.1 hsort).1 w hw kv kv hkv hkv)
          (lt_irrefl kv)
      have htr : ∀ w ∈ rest,
          openSlot { heapSet s v (.upvalue (.closed (s.stack.getD kv .nil)))
              with openUpvalues := rest } w = openSlot s w := by
        intro w hw
        unfold openSlot
        rw [show heapGet { heapSet s v
              (.upvalue (.closed (s.stack.getD kv .nil)))
              with openUpvalues := rest } w = heapGet s w from
            heapGet_heapSet_ne (hne w hw)]
      have hopen₂ : ∀ w ∈ rest,
          (openSlot { heapSet s v
              (.upvalue (.closed (s.stack.getD kv .nil)))
              with openUpvalues := rest } w).isSome := by
        intro w hw
        rw [htr w hw]
        exact hopen w (List.mem_cons_of_mem _ hw)
      have hsort₂ : rest.Pairwise (SlotAbove
          { heapSet s v (.upvalue (.closed (s.stack.getD kv .nil)))
              with openUpvalues := rest }) := by
        refine List.Pairwise.imp_of_mem ?_ (List.pairwise_cons.1 hsort).2
        intro a b ha hb hab ku kw hku hkw
        rw [htr a ha] at hku
        rw [htr b hb] at hkw
        exact hab ku kw hku hkw
      have hk₂ : openSlot { heapSet s v
          (.upvalue (.closed (s.stack.getD kv .nil)))
          with openUpvalues := rest } u = some k := by
        rw [htr u hur]
        exact hk
      have hrec := closeGo_closes last rest _ u k hopen₂ hsort₂ hur hk₂ hl
      simp only [closeGo, hvg]
      rw [if_pos (le_of_lt (lt_of_le_of_lt hl hkkv))]
      exact hrec

end Luapp

namespace Luapp

theorem writeUpvalue_open {s : VMState} {u : ObjId} {k : Nat} {v : Value}
    (h : openSlot s u = some k) (hlt : k < s.stack.length) :
    writeUpvalue s u v = some { s with stack := s.stack.set k v } ∧
    readUpvalue { s with stack := s.stack.set k v } u = some v := by
  have hg := openSlot_some h
  constructor
  · unfold writeUpvalue
    rw [hg]
    exact if_pos hlt
  · unfold readUpvalue
    rw [show heapGet { s with stack := s.stack.set k v } u = heapGet s u
        from rfl, hg]
    exact List.get?_set_eq_of_lt _ hlt

theorem writeUpvalue_closed {s : VMState} {u : ObjId} {w : Value}
    {v : Value} (h : heapGet s u = some (.upvalue (.closed w))) :
    writeUpvalue s u v = some (heapSet s u (.upvalue (.closed v))) ∧
    readUpvalue (heapSet s u (.upvalue (.closed v))) u = some v := by
  constructor
  · unfold writeUpvalue
    rw [h]
  · unfold readUpvalue
    rw [heapGet_heapSet_eq h]

end Luapp

namespace Luapp

/-- Concrete VM state exercising the upvalue machinery: two stack slots,
empty heap, no open upvalues. -/
def c7S : VMState :=
  { heap := [], nextId := 0, stack := [.num 7, .num 8],
    frames := [], globals := [], openUpvalues := [] }

end Luapp

/-- C7: (1) on any state whose open-upvalue list satisfies the invariant
(all nodes open, slots strictly descending), captureUpvalue succeeds,
preserves the invariant and heap-boundedness, and returns a node for the
requested slot that is on the list; capturing the same slot again returns
the SAME upvalue object and leaves the state unchanged, so two closures
over one enclosing local share one node.  (2) While the slot is on the
stack, a write through the shared node is observable through any reader of
that node.  (3) closeUpvalues at or below the node's slot turns the node
into a closed cell holding the stack value, which remains readable, and a
later write through the closed cell is again observable through it. -/
theorem Luapp.open_upvalue_list_sorted_and_shared :
    (∀ (s : Luapp.VMState) (k : Nat), Luapp.OpenSorted s →
       Luapp.HeapBound s →
       ∃ u s', Luapp.captureUpvalue s k = some (u, s') ∧
         Luapp.OpenSorted s' ∧ Luapp.HeapBound s' ∧
         Luapp.openSlot s' u = some k ∧ u ∈ s'.openUpvalues ∧
         Luapp.captureUpvalue s' k = some (u, s')) ∧
    (∀ (s : Luapp.VMState) (u : Luapp.ObjId) (k : Nat) (v : Luapp.Value),
       Luapp.openSlot s u = some k → k < s.stack.length →
       Luapp.writeUpvalue s u v =
         some { s with stack := s.stack.set k v } ∧
       Luapp.readUpvalue { s with stack := s.stack.set k v } u = some v) ∧
    (∀ (s : Luapp.VMState) (u : Luapp.ObjId) (k last : Nat),
       Luapp.OpenSorted s → u ∈ s.openUpvalues →
       Luapp.openSlot s u = some k → last ≤ k →
       Luapp.heapGet (Luapp.closeUpvalues s last) u =
         some (.upvalue (.closed (s.stack.getD k Luapp.Value.nil))) ∧
       Luapp.readUpvalue (Luapp.closeUpvalues s last) u =
         some (s.stack.getD k Luapp.Value.nil) ∧
       ∀ v : Luapp.Value, ∃ s₄,
         Luapp.writeUpvalue (Luapp.closeUpvalues s last) u v = some s₄ ∧
         Luapp.readUpvalue s₄ u = some v) := by
  refine ⟨?_, ?_, ?_⟩
  · intro s k hs hb
    by_cases hmem : ∃ u ∈ s.openUpvalues, Luapp.openSlot s u = some k
    · obtain ⟨u, hu, hk⟩ := hmem
      exact ⟨u, s, Luapp.captureUpvalue_of_mem hs hu hk, hs, hb, hk, hu,
        Luapp.captureUpvalue_of_mem hs hu hk⟩
    · push_neg at hmem
      obtain ⟨l₁, l₂, hsplit, heq, hsorted⟩ :=
        Luapp.captureUpvalue_not_mem hs hb hmem
      refine ⟨s.nextId, Luapp.capState s k (l₁ ++ s.nextId :: l₂), heq,
        hsorted, Luapp.heapBound_capState hb,
        Luapp.openSlot_capState_self, ?_, ?_⟩
      · exact List.mem_append_right _ (List.mem_cons_self _ _)
      · exact Luapp.captureUpvalue_of_mem hsorted
          (List.mem_append_right _ (List.mem_cons_self _ _))
          Luapp.openSlot_capState_self
  · intro s u k v hk hlt
    exact Luapp.writeUpvalue_open hk hlt
  · intro s u k last hs hu hk hl
    have hc : Luapp.heapGet (Luapp.closeUpvalues s last) u =
        some (.upvalue (.closed (s.stack.getD k Luapp.Value.nil))) :=
      Luapp.closeGo_closes last s.openUpvalues s u k hs.1 hs.2 hu hk hl
    refine ⟨hc, ?_, ?_⟩
    · unfold Luapp.readUpvalue
      rw [hc]
    · intro v
      exact ⟨_, (Luapp.writeUpvalue_closed hc).1,
        (Luapp.writeUpvalue_closed hc).2⟩

/-- C7 witness: the capture clause applied to the concrete state c7S at
slot 1, with the invariant hypotheses discharged on the empty lists. -/
theorem Luapp.open_upvalue_list_sorted_and_shared_witness :
    ∃ u s', Luapp.captureUpvalue Luapp.c7S 1 = some (u, s') ∧
      Luapp.OpenSorted s' ∧ Luapp.HeapBound s' ∧
      Luapp.openSlot s' u = some 1 ∧ u ∈ s'.openUpvalues ∧
      Luapp.captureUpvalue s' 1 = some (u, s') := by
  refine Luapp.open_upvalue_list_sorted_and_shared.1 Luapp.c7S 1
    ⟨?_, ?_⟩ ?_
  · intro u hu
    exact absurd hu (List.not_mem_nil u)
  · exact List.Pairwise.nil
  · intro p hp
    exact absurd hp (List.not_mem_nil p)

namespace Luapp

namespace GCM

/-- The privates table of a class payload (empty for every other object). -/
def clsPrivates (o : GObj) : List (Nat × Option Nat) :=
  match o with
  | .cls _ _ _ ps => ps
  | _ => []

/-- The methods table of a class payload (empty for every other object). -/
def clsMethods (o : GObj) : List (Nat × Option Nat) :=
  match o with
  | .cls _ _ ms _ => ms
  | _ => []

/-- The name reference of a native payload (empty for every other
object). -/
def nativeName (o : GObj) : List Nat :=
  match o with
  | .native nm => [nm]
  | _ => []

/-- How one mark step extends a mark state: both components grow, every
new mark is on the gray stack, and every new gray entry is marked. -/
def MExt (s t : GCSt) : Prop :=
  s.marked ⊆ t.marked ∧ s.gray ⊆ t.gray ∧
  (∀ x ∈ t.marked, x ∈ s.marked ∨ x ∈ t.gray) ∧
  (∀ x ∈ t.gray, x ∈ s.gray ∨ x ∈ t.marked)

theorem mext_refl (s : GCSt) : MExt s s :=
  ⟨fun _ h => h, fun _ h => h, fun x hx => Or.inl hx, fun x hx => Or.inl hx⟩

theorem mext_trans {s t u : GCSt} (h1 : MExt s t) (h2 : MExt t u) :
    MExt s u := by
  obtain ⟨m1, g1, n1, o1⟩ := h1
  obtain ⟨m2, g2, n2, o2⟩ := h2
  refine ⟨fun x hx => m2 (m1 hx), fun x hx => g2 (g1 hx), ?_, ?_⟩
  · intro x hx
    rcases n2 x hx with hx' | hx'
    · rcases n1 x hx' with hx'' | hx''
      · exact Or.inl hx''
      · exact Or.inr (g2 hx'')
    · exact Or.inr hx'
  · intro x hx
    rcases o2 x hx with hx' | hx'
    · rcases o1 x hx' with hx'' | hx''
      · exact Or.inl hx''
      · exact Or.inr (m2 hx'')
    · exact Or.inr hx'

theorem markObject_mext (st : GCSt) (r : Nat) : MExt st (markObject st r) := by
  unfold markObject
  split
  · exact mext_refl st
  · refine ⟨fun x hx => List.mem_cons_of_mem _ hx,
      fun x hx => List.mem_cons_of_mem _ hx, ?_, ?_⟩
    · intro x hx
      rcases List.mem_cons.1 hx with rfl | hx'
      · exact Or.inr (List.mem_cons_self _ _)
      · exact Or.inl hx'
    · intro x hx
      rcases List.mem_cons.1 hx with rfl | hx'
      · exact Or.inr (List.mem_cons_self _ _)
      · exact Or.inl hx'

theorem markOpt_mext (st : GCSt) (r : Option Nat) : MExt st (markOpt st r) := by
  cases r with
  | none => exact mext_refl st
  | some id => exact markObject_mext st id

theorem markObject_self (st : GCSt) (r : Nat) :
    r ∈ (markObject st r).marked := by
  unfold markObject
  split
  · assumption
  · exact List.mem_cons_self _ _

theorem foldl_markOpt_mext (L : List (Option Nat)) :
    ∀ st : GCSt, MExt st (L.foldl markOpt st) := by
  induction L with
  | nil => exact fun st => mext_refl st
  | cons r rs ih =>
    intro st
    exact mext_trans (markOpt_mext st r) (ih (markOpt st r))

theorem foldl_markObject_mext (L : List Nat) :
    ∀ st : GCSt, MExt st (L.foldl markObject st) := by
  induction L with
  | nil => exact fun st => mext_refl st
  | cons r rs ih =>
    intro st
    exact mext_trans (markObject_mext st r) (ih (markObject st r))

theorem markTable_mext (t : List (Nat × Option Nat)) :
    ∀ st : GCSt, MExt st (markTable st t) := by
  induction t with
  | nil => exact fun st => mext_refl st
  | cons p ps ih =>
    intro st
    exact mext_trans
      (mext_trans (markObject_mext st p.1) (markOpt_mext _ p.2)) (ih _)

theorem foldl_markOpt_covers (L : List (Option Nat)) :
    ∀ st : GCSt, ∀ r ∈ L.reduceOption, r ∈ (L.foldl markOpt st).marked := by
  induction L with
  | nil => intro st r hr; simp at hr
  | cons x xs ih =>
    intro st r hr
    cases x with
    | none =>
      simp only [List.reduceOption_cons_of_none] at hr
      exact ih _ r hr
    | some id =>
      simp only [List.reduceOption_cons_of_some] at hr
      rcases List.mem_cons.1 hr with rfl | hr'
      · exact (foldl_markOpt_mext xs _).1 (markObject_self st r)
      · exact ih _ r hr'

theorem markTable_marks_keys (t : List (Nat × Option Nat)) :
    ∀ st : GCSt, ∀ p ∈ t, p.1 ∈ (markTable st t).marked := by
  induction t with
  | nil => intro st p hp; simp at hp
  | cons q qs ih =>
    intro st p hp
    rcases List.mem_cons.1 hp with rfl | hp'
    · exact (markTable_mext qs _).1
        ((markOpt_mext _ p.2).1 (markObject_self st p.1))
    · exact ih _ p hp'

end GCM

end Luapp

namespace Luapp

namespace GCM

/-- Count of not-yet-marked ids in a fixed universe. -/
def umk (U : List Nat) (m : List Nat) : Nat :=
  (U.filter (fun x => decide (x ∉ m))).length

/-- The trace measure: twice the unmarked count plus the gray size. -/
def meas (U : List Nat) (st : GCSt) : Nat :=
  2 * umk U st.marked + st.gray.length

theorem umk_mono_cons (U : List Nat) (r : Nat) (m : List Nat) :
    umk U (r :: m) ≤ umk U m := by
  unfold umk
  rw [← List.countP_eq_length_filter, ← List.countP_eq_length_filter]
  refine List.countP_mono_left ?_
  intro a _ ha
  simp only [decide_eq_true_eq] at ha ⊢
  intro hm
  exact ha (List.mem_cons_of_mem _ hm)

theorem umk_strict (U : List Nat) (r : Nat) (m : List Nat) (hU : r ∈ U)
    (hm : r ∉ m) : umk U (r :: m) + 1 ≤ umk U m := by
  obtain ⟨s, t, rfl⟩ := List.append_of_mem hU
  unfold umk
  rw [List.filter_append, List.filter_append, List.filter_cons,
    List.filter_cons]
  have h1 : decide (r ∉ m) = true := by simpa using hm
  have h2 : decide (r ∉ r :: m) = false := by
    simp [List.mem_cons_self]
  rw [h1, h2, if_pos rfl, if_neg (by simp : ¬ (false = true))]
  simp only [List.length_append, List.length_cons]
  have hs : (s.filter (fun x => decide (x ∉ r :: m))).length ≤
      (s.filter (fun x => decide (x ∉ m))).length := by
    rw [← List.countP_eq_length_filter, ← List.countP_eq_length_filter]
    refine List.countP_mono_left ?_
    intro a _ ha
    simp only [decide_eq_true_eq] at ha ⊢
    intro hmm
    exact ha (List.mem_cons_of_mem _ hmm)
  have ht : (t.filter (fun x => decide (x ∉ r :: m))).length ≤
      (t.filter (fun x => decide (x ∉ m))).length := by
    rw [← List.countP_eq_length_filter, ← List.countP_eq_length_filter]
    refine List.countP_mono_left ?_
    intro a _ ha
    simp only [decide_eq_true_eq] at ha ⊢
    intro hmm
    exact ha (List.mem_cons_of_mem _ hmm)
  omega

theorem meas_markObject (U : List Nat) (st : GCSt) (r : Nat) (hU : r ∈ U) :
    meas U (markObject st r) ≤ meas U st := by
  unfold meas markObject
  split
  · exact le_refl _
  · rename_i hm
    simp only [List.length_cons]
    have := umk_strict U r st.marked hU hm
    omega

theorem meas_markOpt (U : List Nat) (st : GCSt) (r : Option Nat)
    (hU : ∀ x, r = some x → x ∈ U) :
    meas U (markOpt st r) ≤ meas U st := by
  cases r with
  | none => exact le_refl _
  | some id => exact meas_markObject U st id (hU id rfl)

theorem meas_foldl_markOpt (U : List Nat) :
    ∀ (L : List (Option Nat)) (st : GCSt),
      (∀ x ∈ L.reduceOption, x ∈ U) →
      meas U (L.foldl markOpt st) ≤ meas U st := by
  intro L
  induction L with
  | nil => intro st _; exact le_refl _
  | cons r rs ih =>
    intro st hU
    refine le_trans (ih _ ?_) (meas_markOpt U st r ?_)
    · intro x hx
      refine hU x ?_
      cases r with
      | none => simpa using hx
      | some id =>
        simp only [List.reduceOption_cons_of_some]
        exact List.mem_cons_of_mem _ hx
    · intro x hx
      subst hx
      refine hU x ?_
      simp

end GCM

end Luapp

namespace Luapp

namespace GCM

/-- Mark-closure below the gray frontier: every marked object not still
gray already has all its traced references marked. -/
def Closed (heap : List (Nat × GObj)) (st : GCSt) : Prop :=
  ∀ id ∈ st.marked, id ∉ st.gray →
    ∀ o, heap.lookup id = some o →
      ∀ r ∈ (blackenRefs o).reduceOption, r ∈ st.marked

theorem trace_drains (heap : List (Nat × GObj)) (U : List Nat)
    (hU : ∀ p ∈ heap, ∀ r ∈ (blackenRefs p.2).reduceOption, r ∈ U) :
    ∀ (fuel : Nat) (st : GCSt), st.gray ⊆ st.marked → Closed heap st →
      meas U st ≤ fuel →
      (traceReferences heap fuel st).gray = [] ∧
      Closed heap (traceReferences heap fuel st) ∧
      st.marked ⊆ (traceReferences heap fuel st).marked := by
  intro fuel
  induction fuel with
  | zero =>
    intro st hgs hcl hm
    have hg : st.gray = [] := by
      unfold meas at hm
      exact List.length_eq_zero.1 (by omega)
    exact ⟨hg, hcl, fun _ h => h⟩
  | succ fuel ih =>
    intro st hgs hcl hm
    obtain ⟨marked, gray⟩ := st
    cases gray with
    | nil => exact ⟨rfl, hcl, fun _ h => h⟩
    | cons id rest =>
      have hidm : id ∈ marked := hgs (List.mem_cons_self _ _)
      have hstep : traceReferences heap (fuel + 1) ⟨marked, id :: rest⟩ =
          traceReferences heap fuel
            (blackenObject heap ⟨marked, rest⟩ id) := rfl
      rw [hstep]
      have hm1 : meas U (⟨marked, id :: rest⟩ : GCSt) =
          2 * umk U marked + rest.length + 1 := rfl
      have hm2 : meas U (⟨marked, rest⟩ : GCSt) =
          2 * umk U marked + rest.length := rfl
      rw [hm1] at hm
      unfold blackenObject
      split
      · rename_i o heq
        set stm : GCSt := ⟨marked, rest⟩ with hstm
        set st' := (blackenRefs o).foldl markOpt stm with hst'
        have hrefsU : ∀ r ∈ (blackenRefs o).reduceOption, r ∈ U :=
          hU (id, o) (lookup_mem heq)
        have hmx : MExt stm st' := foldl_markOpt_mext _ stm
        have hcov : ∀ r ∈ (blackenRefs o).reduceOption, r ∈ st'.marked :=
          fun r hr => foldl_markOpt_covers _ stm r hr
        have hgs' : st'.gray ⊆ st'.marked := by
          intro x hx
          rcases hmx.2.2.2 x hx with hx' | hx'
          · exact hmx.1 (hgs (List.mem_cons_of_mem _ hx'))
          · exact hx'
        have hcl' : Closed heap st' := by
          intro id' hid' hng' o' heq' r hr
          rcases hmx.2.2.1 id' hid' with hid'' | hid''
          · by_cases hii : id' = id
            · subst hii
              rw [heq] at heq'
              injection heq' with ho
              subst ho
              exact hcov r hr
            · have hng : id' ∉ (⟨marked, id :: rest⟩ : GCSt).gray := by
                intro hc
                rcases List.mem_cons.1 hc with rfl | hc'
                · exact hii rfl
                · exact hng' (hmx.2.1 hc')
              exact hmx.1 (hcl id' hid'' hng o' heq' r hr)
          · exact absurd hid'' hng'
        have hmeas' : meas U st' ≤ fuel := by
          have hf : meas U st' ≤ meas U stm :=
            meas_foldl_markOpt U (blackenRefs o) stm hrefsU
          have hs2 : meas U stm = 2 * umk U marked + rest.length := hm2
          omega
        obtain ⟨hg1, hc1, hsub1⟩ := ih st' hgs' hcl' hmeas'
        exact ⟨hg1, hc1, fun x hx => hsub1 (hmx.1 hx)⟩
      · rename_i heq
        set stm : GCSt := ⟨marked, rest⟩ with hstm
        have hgs2 : stm.gray ⊆ stm.marked :=
          fun x hx => hgs (List.mem_cons_of_mem _ hx)
        have hcl2 : Closed heap stm := by
          intro id' hid' hng' o' heq' r hr
          by_cases hii : id' = id
          · subst hii
            rw [heq] at heq'
            cases heq'
          · have hng : id' ∉ (⟨marked, id :: rest⟩ : GCSt).gray := by
              intro hc
              rcases List.mem_cons.1 hc with rfl | hc'
              · exact hii rfl
              · exact hng' hc'
            exact hcl id' hid' hng o' heq' r hr
        have hm2' : meas U stm ≤ fuel := by
          rw [hstm, hm2]
          omega
        obtain ⟨hg1, hc1, hsub1⟩ := ih stm hgs2 hcl2 hm2'
        exact ⟨hg1, hc1, hsub1⟩

end GCM

end Luapp

namespace Luapp

namespace GCM

theorem markRoots_mext (r : Roots) : MExt ⟨[], []⟩ (markRoots r) :=
  mext_trans (foldl_markOpt_mext _ _)
    (mext_trans (foldl_markObject_mext _ _)
      (mext_trans (foldl_markObject_mext _ _)
        (mext_trans (markTable_mext _ _)
          (mext_trans (foldl_markObject_mext _ _) (markOpt_mext _ _)))))

theorem markRoots_gray_marked (r : Roots) :
    (markRoots r).gray ⊆ (markRoots r).marked := by
  intro x hx
  rcases (markRoots_mext r).2.2.2 x hx with h | h
  · exact absurd h (List.not_mem_nil x)
  · exact h

theorem markRoots_marked_gray (r : Roots) :
    ∀ x ∈ (markRoots r).marked, x ∈ (markRoots r).gray := by
  intro x hx
  rcases (markRoots_mext r).2.2.1 x hx with h | h
  · exact absurd h (List.not_mem_nil x)
  · exact h

theorem markRoots_closed (heap : List (Nat × GObj)) (r : Roots) :
    Closed heap (markRoots r) := by
  intro id hid hng o _ rr _
  exact absurd (markRoots_marked_gray r id hid) hng

theorem markRoots_global_key (r : Roots) {nm : Nat}
    (h : nm ∈ r.globals.map Prod.fst) : nm ∈ (markRoots r).marked := by
  obtain ⟨p, hp, rfl⟩ := List.mem_map.1 h
  exact (markOpt_mext _ _).1 ((foldl_markObject_mext _ _).1
    (markTable_marks_keys r.globals _ p hp))

theorem heap_refs_relevant (vm : GCVM) :
    ∀ p ∈ vm.heap, ∀ r ∈ (blackenRefs p.2).reduceOption,
      r ∈ relevantIds vm := by
  intro p hp r hr
  unfold relevantIds
  rw [List.mem_dedup]
  exact List.mem_append_right _ (List.mem_flatMap.2 ⟨p, hp, hr⟩)

theorem collect_drained (vm : GCVM) :
    (traceReferences vm.heap
      (2 * (relevantIds vm).length + (markRoots vm.roots).gray.length)
      (markRoots vm.roots)).gray = [] ∧
    Closed vm.heap (traceReferences vm.heap
      (2 * (relevantIds vm).length + (markRoots vm.roots).gray.length)
      (markRoots vm.roots)) ∧
    (markRoots vm.roots).marked ⊆ (traceReferences vm.heap
      (2 * (relevantIds vm).length + (markRoots vm.roots).gray.length)
      (markRoots vm.roots)).marked := by
  refine trace_drains vm.heap (relevantIds vm) (heap_refs_relevant vm) _
    (markRoots vm.roots) (markRoots_gray_marked vm.roots)
    (markRoots_closed vm.heap vm.roots) ?_
  unfold meas
  have := List.length_filter_le
    (fun x => decide (x ∉ (markRoots vm.roots).marked)) (relevantIds vm)
  unfold umk
  omega

theorem collectMarked_closed (vm : GCVM) :
    ∀ id ∈ collectMarked vm, ∀ o, vm.heap.lookup id = some o →
      ∀ r ∈ (blackenRefs o).reduceOption, r ∈ collectMarked vm := by
  intro id hid o heq r hr
  obtain ⟨hg, hc, _⟩ := collect_drained vm
  refine hc id hid ?_ o heq r hr
  rw [hg]
  exact List.not_mem_nil id

theorem collectMarked_of_global_key (vm : GCVM) {nm : Nat}
    (h : nm ∈ vm.roots.globals.map Prod.fst) : nm ∈ collectMarked vm :=
  (collect_drained vm).2.2 (markRoots_global_key vm.roots h)

theorem mem_sweep {heap : List (Nat × GObj)} {marked : List Nat}
    {p : Nat × GObj} :
    p ∈ sweep heap marked ↔ p ∈ heap ∧ p.1 ∈ marked := by
  unfold sweep
  simp [List.mem_filter]

theorem lookup_of_mem_nodup :
    ∀ {l : List (Nat × GObj)}, (l.map Prod.fst).Nodup →
      ∀ {p : Nat × GObj}, p ∈ l → l.lookup p.1 = some p.2
  | [], _, p, h => absurd h (List.not_mem_nil p)
  | e :: es, hnd, p, h => by
    rcases List.mem_cons.1 h with rfl | hm
    · simp [List.lookup]
    · have hne : p.1 ≠ e.1 := by
        intro hpe
        have h1 : e.1 ∈ es.map Prod.fst := by
          rw [← hpe]
          exact List.mem_map_of_mem Prod.fst hm
        rw [List.map_cons] at hnd
        exact (List.nodup_cons.1 hnd).1 h1
      have hnd2 : (es.map Prod.fst).Nodup := by
        rw [List.map_cons] at hnd
        exact (List.nodup_cons.1 hnd).2
      obtain ⟨a, v⟩ := e
      rw [lookup_cons_ne hne]
      exact lookup_of_mem_nodup hnd2 hm

theorem lookup_filter {f : Nat × GObj → Bool} :
    ∀ {l : List (Nat × GObj)} {r : Nat} {o : GObj},
      l.lookup r = some o → f (r, o) = true →
      (l.filter f).lookup r = some o
  | [], r, o, h, _ => by simp at h
  | e :: es, r, o, h, hf => by
    obtain ⟨a, v⟩ := e
    by_cases hra : r = a
    · subst hra
      rw [List.lookup_cons] at h
      have hbr : (r == r) = true := by simp
      rw [hbr] at h
      cases h
      rw [List.filter_cons_of_pos hf]
      simp [List.lookup]
    · rw [lookup_cons_ne hra] at h
      by_cases hfe : f (a, v) = true
      · rw [List.filter_cons_of_pos hfe, lookup_cons_ne hra]
        exact lookup_filter h hf
      · rw [List.filter_cons_of_neg (by simp [hfe])]
        exact lookup_filter h hf

end GCM

end Luapp

namespace Luapp

namespace GCM

/-- Concrete GC state for the C5 witness: a class (with a private method),
its name string, the method closure chain, and a native whose name string
is a key of the globals table; everything reachable from the roots.  The
privates table holds the name under a BOOL_VAL(true) marker — no object
reference — exactly as defineMethod creates it; the closure itself lives
in the methods table. -/
def c5VM : GCVM :=
  { heap := [(0, .str), (1, .str),
             (2, .cls 0 none [(1, some 3)] [(1, none)]),
             (3, .closure 4 []), (4, .function none []),
             (5, .native 6), (6, .str)],
    roots := { stack := [some 2, some 5], frameClosures := [],
               openUpvalues := [], globals := [(6, some 5)],
               compilerFns := [], initString := none },
    strings := [0, 1, 6] }

end GCM

end Luapp

/-- C5: if the heap is well formed (identities unique, every pointer field
of every object resolving on the all-objects list), every name recorded in
a class's privates table is also a key of its methods table while the
privates values hold no object reference (as defineMethod guarantees: it
stores the closure under the name in methods and only BOOL_VAL(true) in
privates), and every native's name string is a key of the globals table
(as defineNative guarantees), then after collectGarbage every pointer
field of every surviving object — class name, superclass, methods table,
privates-table name strings, native name included — still resolves on the
all-objects list. -/
theorem Luapp.gc_survivors_keep_referenced_objects (vm : Luapp.GCM.GCVM)
    (hnodup : (vm.heap.map Prod.fst).Nodup)
    (hwf : ∀ p ∈ vm.heap, ∀ r ∈ Luapp.GCM.allFieldRefs p.2,
      (vm.heap.lookup r).isSome)
    (hprivKeys : ∀ p ∈ vm.heap, ∀ q ∈ Luapp.GCM.clsPrivates p.2,
      q.1 ∈ (Luapp.GCM.clsMethods p.2).map Prod.fst)
    (hprivVals : ∀ p ∈ vm.heap, ∀ q ∈ Luapp.GCM.clsPrivates p.2,
      q.2 = none)
    (hnat : ∀ p ∈ vm.heap, ∀ nm ∈ Luapp.GCM.nativeName p.2,
      nm ∈ vm.roots.globals.map Prod.fst) :
    ∀ p ∈ (Luapp.GCM.collectGarbage vm).heap,
      ∀ r ∈ Luapp.GCM.allFieldRefs p.2,
        ((Luapp.GCM.collectGarbage vm).heap.lookup r).isSome := by
  intro p hp r hr
  obtain ⟨pid, po⟩ := p
  have hsweep : (Luapp.GCM.collectGarbage vm).heap =
      Luapp.GCM.sweep vm.heap (Luapp.GCM.collectMarked vm) := rfl
  rw [hsweep] at hp
  obtain ⟨hpin, hpm⟩ := Luapp.GCM.mem_sweep.1 hp
  have hlook : vm.heap.lookup pid = some po :=
    Luapp.GCM.lookup_of_mem_nodup hnodup hpin
  have hcm : ∀ x ∈ (Luapp.GCM.blackenRefs po).reduceOption,
      x ∈ Luapp.GCM.collectMarked vm :=
    Luapp.GCM.collectMarked_closed vm pid hpm po hlook
  have hrm : r ∈ Luapp.GCM.collectMarked vm := by
    cases po with
    | str => exact absurd hr (List.not_mem_nil r)
    | native nm =>
      have : r = nm := by
        simpa [Luapp.GCM.allFieldRefs] using hr
      subst this
      exact Luapp.GCM.collectMarked_of_global_key vm
        (hnat ⟨pid, .native r⟩ hpin r (List.mem_cons_self _ _))
    | cls n sup ms ps =>
      rcases List.mem_append.1 hr with h1 | h2
      · rcases List.mem_append.1 h1 with hA | hB
        · exact hcm r hA
        · obtain ⟨q, hq, rfl⟩ := List.mem_map.1 hB
          have hk : q.1 ∈ ms.map Prod.fst :=
            hprivKeys ⟨pid, .cls n sup ms ps⟩ hpin q hq
          obtain ⟨q2, hq2m, hq2e⟩ := List.mem_map.1 hk
          refine hcm q.1 (List.reduceOption_mem_iff.2 ?_)
          refine List.mem_append_right _
            (List.mem_flatMap.2 ⟨q2, hq2m, ?_⟩)
          rw [← hq2e]
          simp
      · have h3 : some r ∈ ps.map Prod.snd :=
          List.reduceOption_mem_iff.1 h2
        obtain ⟨q, hq, hq2⟩ := List.mem_map.1 h3
        have hnone : q.2 = none :=
          hprivVals ⟨pid, .cls n sup ms ps⟩ hpin q hq
        rw [hnone] at hq2
        exact Option.noConfusion hq2
    | upvalue c => exact hcm r hr
    | function nm cs => exact hcm r hr
    | closure fn ups => exact hcm r hr
    | inst k fs => exact hcm r hr
    | bound rcv m => exact hcm r hr
    | table es arr => exact hcm r hr
    | trait nm ms => exact hcm r hr
  have hrsome := hwf ⟨pid, po⟩ hpin r hr
  obtain ⟨ro, hro⟩ := Option.isSome_iff_exists.1 hrsome
  rw [hsweep]
  unfold Luapp.GCM.sweep
  rw [Luapp.GCM.lookup_filter hro (by simp [hrm])]
  rfl

/-- C5 witness: for the concrete state c5VM, the private-method name
string (id 1) referenced by the surviving class (id 2) still resolves on
the all-objects list after collection. -/
theorem Luapp.gc_survivors_keep_referenced_objects_witness :
    ((Luapp.GCM.collectGarbage Luapp.GCM.c5VM).heap.lookup 1).isSome :=
  Luapp.gc_survivors_keep_referenced_objects Luapp.GCM.c5VM
    (by decide) (by decide) (by decide) (by decide) (by decide)
    (2, .cls 0 none [(1, some 3)] [(1, none)]) (by decide) 1 (by decide)

namespace Luapp

/-- The canonical emission state after the two operand constants of a
binary expression have been compiled (number(), string(), literal() each
end in emitConstant). -/
def canonTwo (a b : Value) : CState :=
  emitConstant (emitConstant ⟨⟨[], []⟩, false⟩ a) b

/-- The canonical emission state after the single operand constant of a
unary expression has been compiled. -/
def canonOne (a : Value) : CState :=
  emitConstant ⟨⟨[], []⟩, false⟩ a

/-- A VM state about to run the given chunk: a single frame over a closure
of a zero-arity function holding the chunk (as interpret() sets up). -/
def mkRunState (ch : Chunk) : VMState :=
  { heap := [(0, .function 0 0 ch none), (1, .closure 0 [])],
    nextId := 2, stack := [],
    frames := [{ closure := 1, ip := 0, slots := 0 }],
    globals := [], openUpvalues := [] }

end Luapp

namespace Luapp

/-- Discriminator for the number-number folding path of binary(). -/
def bothNums (a b : Value) : Bool :=
  match a, b with
  | .num _, .num _ => true
  | _, _ => false

theorem decide_ge_eq_not_lt (x y : ℚ) : decide (x ≥ y) = !decide (x < y) := by
  rw [← decide_not]
  exact decide_eq_decide.2 (not_lt).symm

theorem decide_le_eq_not_gt (x y : ℚ) : decide (x ≤ y) = !decide (x > y) := by
  rw [← decide_not]
  exact decide_eq_decide.2 (not_lt).symm

theorem valuesEqual_num (x y : ℚ) :
    valuesEqual (.num x) (.num y) = decide (x = y) := by
  by_cases h : x = y
  · subst h
    simp [valuesEqual]
  · simp [valuesEqual, h]

theorem binaryEmit_num_fold {op : TokOp} {x y : ℚ} {r : Value}
    (h : foldArith op x y = .folded r) (cs : CState)
    (hl : lastTwoWereConstants cs.chunk = some (.num x, .num y)) :
    binaryEmit op cs = some (emitConstant { cs with
      chunk := removeLastTwoConstants cs.chunk } r) := by
  unfold binaryEmit
  rw [hl]
  have step : ∀ fr : FoldArithRes, fr = .folded r →
      (match fr with
       | FoldArithRes.folded v => some (emitConstant
           { cs with chunk := removeLastTwoConstants cs.chunk } v)
       | FoldArithRes.nofold =>
         some (binaryAfterArith op (.num x) (.num y) cs)
       | FoldArithRes.ub => none) =
      some (emitConstant { cs with
        chunk := removeLastTwoConstants cs.chunk } r) := by
    intro fr hfr
    subst hfr
    rfl
  exact step (foldArith op x y) h

/-- Intermediate run state of the unfolded modulo program after its two
constant pushes. -/
def modS2 (x y : ℚ) : VMState :=
  ⟨[(0, .function 0 0 ⟨[0, 0, 0, 1, 24], [.num x, .num y]⟩ none),
    (1, .closure 0 [])], 2, [.num x, .num y], [⟨1, 4, 0⟩], [], []⟩

/-- Final run state of the unfolded modulo program. -/
def modS3 (x y : ℚ) : VMState :=
  ⟨[(0, .function 0 0 ⟨[0, 0, 0, 1, 24], [.num x, .num y]⟩ none),
    (1, .closure 0 [])], 2,
   [.num ((cmod (cint x) (cint y) : Int) : ℚ)], [⟨1, 5, 0⟩], [], []⟩

theorem modulo_run (ns : Nat → List Value → Value) (x y : ℚ)
    (h2 : ¬ cint y = 0) :
    runLoop ns 3 (mkRunState
        (binaryNormalEmit .tPERCENT (canonTwo (.num x) (.num y))).chunk) =
      .noFuel (modS3 x y) := by
  have e1 : runLoop ns 3 (mkRunState
      (binaryNormalEmit .tPERCENT (canonTwo (.num x) (.num y))).chunk) =
      runLoop ns 1 (modS2 x y) := rfl
  have e3 : runStep ns (modS2 x y) = .ok (modS3 x y) := by
    rw [show runStep ns (modS2 x y) =
        (if cint y = 0 then StepOut.stuck else .ok (modS3 x y)) from rfl,
      if_neg h2]
  have e4 : runLoop ns 1 (modS2 x y) =
      (match runStep ns (modS2 x y) with
       | .ok s1 => runLoop ns 0 s1
       | .interpOk s1 => RunResult.interpOk s1
       | .interpErr s1 => RunResult.interpErr s1
       | .stuck => RunResult.stuck) := rfl
  rw [e1, e4, e3]
  rfl

end Luapp

/-- C3: whenever binary() or unary() folds constant operands at compile
time — a number-number arithmetic/comparison/equality fold, a string
concatenation fold, a general literal (in)equality fold, unary minus on a
number, not on any literal — the emitted bytecode for the expression is a
single CONSTANT instruction, and running it yields exactly the value that
running the corresponding unfolded instruction sequence (the non-folding
emission path for the same operator and operands) yields.  Division folds
only for nonzero divisors and modulo only when the divisor truncates to a
nonzero int, mirroring the runtime guards. -/
theorem Luapp.folded_expression_single_constant_equivalent_run :
    (∀ (ns : Nat → List Value → Value) (op : Luapp.TokOp) (x y : ℚ)
       (r : Luapp.Value),
       Luapp.foldArith op x y = .folded r →
       ∃ cs', Luapp.binaryEmit op
           (Luapp.canonTwo (.num x) (.num y)) = some cs' ∧
         cs'.chunk.code = [Luapp.Op.toByte .opCONSTANT, 2] ∧
         cs'.chunk.constants.get? 2 = some r ∧
         ∃ k sU sF, k ≤ 4 ∧
           Luapp.runLoop ns k (Luapp.mkRunState (Luapp.binaryNormalEmit op
             (Luapp.canonTwo (.num x) (.num y))).chunk) = .noFuel sU ∧
           Luapp.runLoop ns 1 (Luapp.mkRunState cs'.chunk) = .noFuel sF ∧
           sU.stack = [r] ∧ sF.stack = [r]) ∧
    (∀ (ns : Nat → List Value → Value) (sa sb : List Char),
       ∃ cs', Luapp.binaryEmit .tDOT_DOT
           (Luapp.canonTwo (.str sa) (.str sb)) = some cs' ∧
         cs'.chunk.code = [Luapp.Op.toByte .opCONSTANT, 2] ∧
         cs'.chunk.constants.get? 2 = some (.str (sa ++ sb)) ∧
         ∃ k sU sF, k ≤ 4 ∧
           Luapp.runLoop ns k (Luapp.mkRunState
             (Luapp.binaryNormalEmit .tDOT_DOT
               (Luapp.canonTwo (.str sa) (.str sb))).chunk) = .noFuel sU ∧
           Luapp.runLoop ns 1 (Luapp.mkRunState cs'.chunk) = .noFuel sF ∧
           sU.stack = [Luapp.Value.str (sa ++ sb)] ∧
           sF.stack = [Luapp.Value.str (sa ++ sb)]) ∧
    (∀ (ns : Nat → List Value → Value) (a b : Luapp.Value),
       Luapp.bothNums a b = false →
       ∃ cs', Luapp.binaryEmit .tEQUAL_EQUAL (Luapp.canonTwo a b) =
           some cs' ∧
         cs'.chunk.code = [Luapp.Op.toByte .opCONSTANT, 2] ∧
         cs'.chunk.constants.get? 2 =
           some (.bool (Luapp.valuesEqual a b)) ∧
         ∃ k sU sF, k ≤ 4 ∧
           Luapp.runLoop ns k (Luapp.mkRunState
             (Luapp.binaryNormalEmit .tEQUAL_EQUAL
               (Luapp.canonTwo a b)).chunk) = .noFuel sU ∧
           Luapp.runLoop ns 1 (Luapp.mkRunState cs'.chunk) = .noFuel sF ∧
           sU.stack = [Luapp.Value.bool (Luapp.valuesEqual a b)] ∧
           sF.stack = [Luapp.Value.bool (Luapp.valuesEqual a b)]) ∧
    (∀ (ns : Nat → List Value → Value) (a b : Luapp.Value),
       Luapp.bothNums a b = false →
       ∃ cs', Luapp.binaryEmit .tTILDE_EQUAL (Luapp.canonTwo a b) =
           some cs' ∧
         cs'.chunk.code = [Luapp.Op.toByte .opCONSTANT, 2] ∧
         cs'.chunk.constants.get? 2 =
           some (.bool (!Luapp.valuesEqual a b)) ∧
         ∃ k sU sF, k ≤ 4 ∧
           Luapp.runLoop ns k (Luapp.mkRunState
             (Luapp.binaryNormalEmit .tTILDE_EQUAL
               (Luapp.canonTwo a b)).chunk) = .noFuel sU ∧
           Luapp.runLoop ns 1 (Luapp.mkRunState cs'.chunk) = .noFuel sF ∧
           sU.stack = [Luapp.Value.bool (!Luapp.valuesEqual a b)] ∧
           sF.stack = [Luapp.Value.bool (!Luapp.valuesEqual a b)]) ∧
    (∀ (ns : Nat → List Value → Value) (n : ℚ),
       (Luapp.unaryEmit .tMINUS (Luapp.canonOne (.num n))).chunk.code =
         [Luapp.Op.toByte .opCONSTANT, 1] ∧
       (Luapp.unaryEmit .tMINUS
         (Luapp.canonOne (.num n))).chunk.constants.get? 1 =
         some (.num (-n)) ∧
       ∃ sU sF,
         Luapp.runLoop ns 2 (Luapp.mkRunState (Luapp.emitByte
           (Luapp.canonOne (.num n))
           (Luapp.Op.toByte .opNEGATE)).chunk) = .noFuel sU ∧
         Luapp.runLoop ns 1 (Luapp.mkRunState (Luapp.unaryEmit .tMINUS
           (Luapp.canonOne (.num n))).chunk) = .noFuel sF ∧
         sU.stack = [Luapp.Value.num (-n)] ∧
         sF.stack = [Luapp.Value.num (-n)]) ∧
    (∀ (ns : Nat → List Value → Value) (v : Luapp.Value),
       (Luapp.unaryEmit .tNOT (Luapp.canonOne v)).chunk.code =
         [Luapp.Op.toByte .opCONSTANT, 1] ∧
       (Luapp.unaryEmit .tNOT (Luapp.canonOne v)).chunk.constants.get? 1 =
         some (.bool (Luapp.isFalseyValue v)) ∧
       ∃ sU sF,
         Luapp.runLoop ns 2 (Luapp.mkRunState (Luapp.emitByte
           (Luapp.canonOne v) (Luapp.Op.toByte .opNOT)).chunk) =
           .noFuel sU ∧
         Luapp.runLoop ns 1 (Luapp.mkRunState (Luapp.unaryEmit .tNOT
           (Luapp.canonOne v)).chunk) = .noFuel sF ∧
         sU.stack = [Luapp.Value.bool (Luapp.isFalseyValue v)] ∧
         sF.stack = [Luapp.Value.bool (Luapp.isFalseyValue v)]) := by
  refine ⟨?_, ?_, ?_, ?_, ?_, ?_⟩
  · intro ns op x y r hr
    cases op with
    | tPLUS =>
      simp only [Luapp.foldArith] at hr
      injection hr with hre
      subst hre
      exact ⟨_, rfl, rfl, rfl, 3, _, _, by omega, rfl, rfl, rfl, rfl⟩
    | tMINUS =>
      simp only [Luapp.foldArith] at hr
      injection hr with hre
      subst hre
      exact ⟨_, rfl, rfl, rfl, 3, _, _, by omega, rfl, rfl, rfl, rfl⟩
    | tSTAR =>
      simp only [Luapp.foldArith] at hr
      injection hr with hre
      subst hre
      exact ⟨_, rfl, rfl, rfl, 3, _, _, by omega, rfl, rfl, rfl, rfl⟩
    | tSLASH =>
      simp only [Luapp.foldArith] at hr
      split at hr
      · rename_i hy
        injection hr with hre
        subst hre
        have hfold : Luapp.foldArith .tSLASH x y =
            .folded (.num (x / y)) := by
          simp only [Luapp.foldArith]
          rw [if_pos hy]
        exact ⟨_, Luapp.binaryEmit_num_fold hfold
          (Luapp.canonTwo (.num x) (.num y)) rfl,
          rfl, rfl, 3, _, _, by omega, rfl, rfl, rfl, rfl⟩
      · simp at hr
    | tPERCENT =>
      simp only [Luapp.foldArith] at hr
      split at hr
      · rename_i hy
        split at hr
        · simp at hr
        · rename_i hcy
          injection hr with hre
          subst hre
          have hfold : Luapp.foldArith .tPERCENT x y =
              .folded (.num ((Luapp.cmod (Luapp.cint x)
                (Luapp.cint y) : Int) : ℚ)) := by
            simp only [Luapp.foldArith]
            rw [if_pos hy, if_neg hcy]
          exact ⟨_, Luapp.binaryEmit_num_fold hfold
            (Luapp.canonTwo (.num x) (.num y)) rfl,
            rfl, rfl, 3, Luapp.modS3 x y, _, by omega,
            Luapp.modulo_run ns x y hcy, rfl, rfl, rfl⟩
      · simp at hr
    | tDOT_DOT =>
      simp only [Luapp.foldArith] at hr
      simp at hr
    | tEQUAL_EQUAL =>
      simp only [Luapp.foldArith] at hr
      injection hr with hre
      subst hre
      refine ⟨_, rfl, rfl, rfl, 3, _, _, by omega, rfl, rfl, ?_, rfl⟩
      show [Luapp.Value.bool (Luapp.valuesEqual (.num x) (.num y))] =
        [Luapp.Value.bool (decide (x = y))]
      rw [Luapp.valuesEqual_num]
    | tTILDE_EQUAL =>
      simp only [Luapp.foldArith] at hr
      injection hr with hre
      subst hre
      refine ⟨_, rfl, rfl, rfl, 4, _, _, by omega, rfl, rfl, ?_, rfl⟩
      show [Luapp.Value.bool (!Luapp.valuesEqual (.num x) (.num y))] =
        [Luapp.Value.bool (decide (x ≠ y))]
      rw [Luapp.valuesEqual_num, decide_not]
    | tGREATER =>
      simp only [Luapp.foldArith] at hr
      injection hr with hre
      subst hre
      exact ⟨_, rfl, rfl, rfl, 3, _, _, by omega, rfl, rfl, rfl, rfl⟩
    | tGREATER_EQUAL =>
      simp only [Luapp.foldArith] at hr
      injection hr with hre
      subst hre
      refine ⟨_, rfl, rfl, rfl, 4, _, _, by omega, rfl, rfl, ?_, rfl⟩
      show [Luapp.Value.bool (!decide (x < y))] =
        [Luapp.Value.bool (decide (x ≥ y))]
      rw [Luapp.decide_ge_eq_not_lt]
    | tLESS =>
      simp only [Luapp.foldArith] at hr
      injection hr with hre
      subst hre
      exact ⟨_, rfl, rfl, rfl, 3, _, _, by omega, rfl, rfl, rfl, rfl⟩
    | tLESS_EQUAL =>
      simp only [Luapp.foldArith] at hr
      injection hr with hre
      subst hre
      refine ⟨_, rfl, rfl, rfl, 4, _, _, by omega, rfl, rfl, ?_, rfl⟩
      show [Luapp.Value.bool (!decide (x > y))] =
        [Luapp.Value.bool (decide (x ≤ y))]
      rw [Luapp.decide_le_eq_not_gt]
    | tNOT =>
      simp only [Luapp.foldArith] at hr
      simp at hr
  · intro ns sa sb
    exact ⟨_, rfl, rfl, rfl, 3, _, _, by omega, rfl, rfl, rfl, rfl⟩
  · intro ns a b hnn
    cases a <;> cases b <;>
      first
      | exact Bool.noConfusion hnn
      | exact ⟨_, rfl, rfl, rfl, 3, _, _, by omega, rfl, rfl, rfl, rfl⟩
  · intro ns a b hnn
    cases a <;> cases b <;>
      first
      | exact Bool.noConfusion hnn
      | exact ⟨_, rfl, rfl, rfl, 4, _, _, by omega, rfl, rfl, rfl, rfl⟩
  · intro ns n
    exact ⟨rfl, rfl, _, _, rfl, rfl, rfl, rfl⟩
  · intro ns v
    cases v <;> exact ⟨rfl, rfl, _, _, rfl, rfl, rfl, rfl⟩

/-- C3 witness: the number fold applied at 2 + 3, with the folding
hypothesis discharged by rfl. -/
theorem Luapp.folded_expression_single_constant_equivalent_run_witness :
    ∃ cs', Luapp.binaryEmit .tPLUS
        (Luapp.canonTwo (.num 2) (.num 3)) = some cs' ∧
      cs'.chunk.code = [Luapp.Op.toByte .opCONSTANT, 2] ∧
      cs'.chunk.constants.get? 2 = some (.num (2 + 3)) ∧
      ∃ k sU sF, k ≤ 4 ∧
        Luapp.runLoop (fun _ _ => .nil) k
          (Luapp.mkRunState (Luapp.binaryNormalEmit .tPLUS
            (Luapp.canonTwo (.num 2) (.num 3))).chunk) = .noFuel sU ∧
        Luapp.runLoop (fun _ _ => .nil) 1
          (Luapp.mkRunState cs'.chunk) = .noFuel sF ∧
        sU.stack = [Luapp.Value.num (2 + 3)] ∧
        sF.stack = [Luapp.Value.num (2 + 3)] :=
  Luapp.folded_expression_single_constant_equivalent_run.1
    (fun _ _ => .nil) .tPLUS 2 3 (.num (2 + 3)) rfl

namespace Luapp

instance : Nonempty Value := ⟨.nil⟩

instance : Nonempty STable := ⟨[]⟩

instance : Nonempty Chunk := ⟨⟨[], []⟩⟩

instance : Nonempty Frame := ⟨⟨0, 0, 0⟩⟩

instance : Nonempty VMState := ⟨⟨[], 0, [], [], [], []⟩⟩

theorem ccCaptureLoop_eq (cid : ObjId) :
    ∀ (n i : Nat) (s : VMState),
      ccCaptureLoop cid i n s = runCaptureLoop cid i n s := by
  intro n
  induction n with
  | zero => intro i s; rfl
  | succ n ih =>
    intro i s
    simp only [ccCaptureLoop, runCaptureLoop, ih]

/-- The opcodes present in callClosure's reduced switch; the seven class
and trait opcodes of the primary loop are absent and hit its default
CC_FAIL case. -/
def ccHandled (op : Op) : Bool :=
  match op with
  | .opGET_SUPER | .opSUPER_INVOKE | .opCLASS | .opINHERIT
  | .opMETHOD | .opTRAIT | .opIMPLEMENT => false
  | _ => true

theorem readByte_stack {s : VMState} {b : Nat} {s1 : VMState}
    (h : readByte s = some (b, s1)) : s1.stack = s.stack := by
  unfold readByte at h
  cases htf : topFrame s with
  | none =>
    rw [htf] at h
    simp at h
  | some f =>
    rw [htf] at h
    replace h : (closureChunk s f.closure).bind
        (fun ch => (ch.code.get? f.ip).bind
          (fun b0 => some (b0, setTopFrame s { f with ip := f.ip + 1 }))) =
        some (b, s1) := h
    cases hch : closureChunk s f.closure with
    | none =>
      rw [hch] at h
      simp at h
    | some ch =>
      rw [hch] at h
      replace h : (ch.code.get? f.ip).bind
          (fun b0 => some (b0, setTopFrame s { f with ip := f.ip + 1 })) =
          some (b, s1) := h
      cases hb : ch.code.get? f.ip with
      | none =>
        rw [hb] at h
        simp at h
      | some b0 =>
        rw [hb] at h
        replace h : some (b0, setTopFrame s { f with ip := f.ip + 1 }) =
            some (b, s1) := h
        injection h with h
        injection h with h1 h2
        rw [← h2]
        rfl

theorem cc_concat_agrees (ns : Nat → List Value → Value) (base : Nat)
    (s s' : VMState) (b : Nat) (s1 : VMState)
    (hrb : readByte s = some (b, s1)) (hdec : decodeOp b = some Op.opCONCAT)
    (h : runStep ns s = .ok s') : ccStep ns base s = .ok s' := by
  unfold runStep at h
  unfold ccStep
  simp only [hrb, hdec] at h ⊢
  split at h
  · rename_i sb sa hpk0 hpk1
    cases hc : concatenate s1 with
    | none =>
      rw [hc] at h
      simp at h
    | some s3 =>
      rw [hc] at h
      injection h with h
      subst h
      unfold concatenate at hc
      simp only [hpk0, hpk1] at hc
      cases hp1 : popV s1 with
      | none =>
        rw [hp1] at hc
        simp at hc
      | some q1 =>
        obtain ⟨v1, t1⟩ := q1
        rw [hp1] at hc
        replace hc : (popV t1).bind
            (fun d => some (pushV d.2 (Value.str (sa ++ sb)))) = some s3 := hc
        cases hp2 : popV t1 with
        | none =>
          rw [hp2] at hc
          simp at hc
        | some q2 =>
          obtain ⟨v2, t2⟩ := q2
          rw [hp2] at hc
          replace hc : some (pushV t2 (Value.str (sa ++ sb))) = some s3 := hc
          injection hc with hc
          subst hc
          simp [hp1, hp2]
  · simp_all
  · simp_all

theorem ccStep_agrees_runStep (ns : Nat → List Value → Value) (base : Nat)
    (s s' : VMState) (b : Nat) (s1 : VMState) (op : Op)
    (hrb : readByte s = some (b, s1)) (hdec : decodeOp b = some op)
    (hcc : ccHandled op = true) (hret : op ≠ .opRETURN)
    (h : runStep ns s = .ok s') : ccStep ns base s = .ok s' := by
  cases op <;>
    first
    | exact absurd rfl hret
    | exact Bool.noConfusion hcc
    | exact cc_concat_agrees ns base s s' b s1 hrb hdec h
    | (unfold runStep at h
       unfold ccStep
       simp only [hrb, hdec] at h ⊢
       try unfold binaryNumOp at h
       try simp only [ccCaptureLoop_eq]
       repeat' split at h
       all_goals simp_all)

end Luapp

namespace Luapp

/-- Native-function table used in the concrete C1 states. -/
def c1NS : Nat → List Value → Value := fun _ _ => .nil

/-- A function body holding a single OP_CLASS instruction (a class
declaration inside the called function). -/
def c1Chunk : Chunk := ⟨[37, 0], [.str ['C']]⟩

/-- Starting VM state for the C1 counterexample: empty stack, the function
and its closure on the heap. -/
def c1S0 : VMState :=
  ⟨[(0, .function 0 0 c1Chunk none), (1, .closure 0 [])], 2, [], [], [], []⟩

/-- The state callClosure reaches after pushing the callee and entering the
frame. -/
def c1Entered : VMState :=
  ⟨[(0, .function 0 0 c1Chunk none), (1, .closure 0 [])], 2, [.obj 1],
   [⟨1, 0, 0⟩], [], []⟩

/-- The state callClosure's reduced loop fails in: the callee is still on
the stack (stack not reset to the saved window) and the frame remains. -/
def c1Fail : VMState :=
  ⟨[(0, .function 0 0 c1Chunk none), (1, .closure 0 [])], 2, [.obj 1],
   [⟨1, 1, 0⟩], [], []⟩

end Luapp

/-- C1 counterexample: invoking through callClosure a closure whose body is
a single OP_CLASS instruction fails (CC_FAIL via the switch's default
case), leaving the callee on the stack instead of resetting to the saved
(empty) window, while the primary dispatch loop executes the same opcode
from the same entered state successfully: the two paths do not have the
same semantics and the failure path does not restore the stack. -/
theorem Luapp.callClosure_class_opcode_fails_without_reset :
    Luapp.callClosure Luapp.c1NS 5 Luapp.c1S0 1 [] =
      .failure Luapp.c1Fail ∧
    Luapp.c1Fail.stack = [Luapp.Value.obj 1] ∧
    Luapp.c1S0.stack = [] ∧
    (∃ s', Luapp.runStep Luapp.c1NS Luapp.c1Entered = .ok s') ∧
    Luapp.ccStep Luapp.c1NS 0 Luapp.c1Entered = .fail Luapp.c1Fail := by
  refine ⟨?_, rfl, rfl, ⟨_, rfl⟩, ?_⟩
  · decide
  · decide

/-- C1 (amended): callClosure's reduced dispatch loop agrees with the
primary loop run on every continuing step of every opcode it implements —
whenever run's switch continues with state s', the reduced switch continues
with the same s' — but the seven opcodes absent from the reduced switch
(GET_SUPER, SUPER_INVOKE, CLASS, INHERIT, METHOD, TRAIT, IMPLEMENT) hit its
default case and fail, and that failure leaves the value stack exactly as
it was (no reset to the saved window happens at the point of failure). -/
theorem Luapp.callClosure_agreement_except_unhandled_opcodes :
    (∀ (ns : Nat → List Value → Value) (base : Nat)
       (s s' : Luapp.VMState) (b : Nat) (s1 : Luapp.VMState) (op : Luapp.Op),
       Luapp.readByte s = some (b, s1) → Luapp.decodeOp b = some op →
       Luapp.ccHandled op = true → op ≠ .opRETURN →
       Luapp.runStep ns s = .ok s' → Luapp.ccStep ns base s = .ok s') ∧
    (∀ (ns : Nat → List Value → Value) (base : Nat)
       (s : Luapp.VMState) (b : Nat) (s1 : Luapp.VMState) (op : Luapp.Op),
       Luapp.readByte s = some (b, s1) → Luapp.decodeOp b = some op →
       Luapp.ccHandled op = false →
       Luapp.ccStep ns base s = .fail s1 ∧ s1.stack = s.stack) := by
  constructor
  · intro ns base s s' b s1 op hrb hdec hcc hret h
    exact Luapp.ccStep_agrees_runStep ns base s s' b s1 op hrb hdec hcc
      hret h
  · intro ns base s b s1 op hrb hdec hcc
    refine ⟨?_, Luapp.readByte_stack hrb⟩
    cases op <;> first
      | exact Bool.noConfusion hcc
      | (unfold Luapp.ccStep
         simp only [hrb, hdec])

/-- Concrete state for the C1 witness: an ADD instruction with two number
operands on the stack. -/
def Luapp.c1WS : Luapp.VMState :=
  ⟨[(0, .function 0 0 ⟨[20], []⟩ none), (1, .closure 0 [])], 2,
   [.num 1, .num 2], [⟨1, 0, 0⟩], [], []⟩

/-- The state after the ADD opcode byte has been fetched. -/
def Luapp.c1WS1 : Luapp.VMState :=
  ⟨[(0, .function 0 0 ⟨[20], []⟩ none), (1, .closure 0 [])], 2,
   [.num 1, .num 2], [⟨1, 1, 0⟩], [], []⟩

/-- The state after the ADD instruction has executed. -/
def Luapp.c1WSr : Luapp.VMState :=
  ⟨[(0, .function 0 0 ⟨[20], []⟩ none), (1, .closure 0 [])], 2,
   [.num (1 + 2)], [⟨1, 1, 0⟩], [], []⟩

/-- C1 witness: the agreement clause applied to a concrete ADD step, and
the unhandled clause applied to the concrete OP_CLASS state of the
counterexample setup. -/
theorem Luapp.callClosure_agreement_except_unhandled_opcodes_witness :
    Luapp.ccStep Luapp.c1NS 0 Luapp.c1WS = .ok Luapp.c1WSr ∧
    Luapp.ccStep Luapp.c1NS 0 Luapp.c1Entered = .fail Luapp.c1Fail :=
  ⟨Luapp.callClosure_agreement_except_unhandled_opcodes.1 Luapp.c1NS 0
      Luapp.c1WS Luapp.c1WSr 20 Luapp.c1WS1 .opADD rfl rfl rfl
      (by decide) rfl,
   (Luapp.callClosure_agreement_except_unhandled_opcodes.2 Luapp.c1NS 0
      Luapp.c1Entered 37 Luapp.c1Fail .opCLASS (by decide) (by decide)
      (by decide)).1⟩
